import Mathlib

/-!
Verification of the n8n Azure Cosmos DB SDK node
(`src/nodes/Cosmos/AzureCosmosSdk.node.ts`, `src/nodes/Cosmos/Cosmos.node.ts`,
`src/credentials/AzureCosmosSdkEntraIdApi.credentials.ts`).

The node's `execute` method is a sequential dispatcher: per input record it
reads an operation and its parameters, performs remote calls against the
Cosmos DB service through one shared client handle, and appends output
records tagged with the originating input index.  We embed that dispatcher
shallowly: the remote service is an oracle (a structure of response
functions), every handler returns the list of remote calls it made (a trace)
together with either the objects it pushed or the thrown error message, and
the per-record try/catch with the host's continue-on-fail flag is the loop
`runItems`.  The master-key `authenticate` signer is embedded down to the
byte level (SHA-256, HMAC, base64, percent-encoding).
-/

set_option maxHeartbeats 1000000

/-- JSON values as handled by the node: documents, query result rows and
response bodies.  A JS object is an insertion-ordered association list. -/
inductive JValue where
  | null : JValue
  | bool : Bool → JValue
  | num : Int → JValue
  | str : String → JValue
  | arr : List JValue → JValue
  | obj : List (String × JValue) → JValue

/-- A top-level JS object (insertion-ordered fields, unique keys). -/
abbrev Obj := List (String × JValue)

/-- Property read `o[k]` / `Object.prototype.hasOwnProperty.call(o, k)`:
`none` models an absent property. -/
def jLookup (o : Obj) (k : String) : Option JValue := o.lookup k

/-- JS truthiness of a JSON value (`NaN` cannot arise in this model). -/
def jsTruthy : JValue → Bool
  | .null => false
  | .bool b => b
  | .num n => n != 0
  | .str s => s != ""
  | .arr _ => true
  | .obj _ => true

/-- JS truthiness of a possibly-absent property (`undefined` is falsy). -/
def jsTruthyOpt : Option JValue → Bool
  | none => false
  | some v => jsTruthy v

/-- JS truthiness of a possibly-absent string value. -/
def jsTruthyStrOpt : Option String → Bool
  | none => false
  | some s => s != ""

/-- `delete o[k]` on a shallow copy of `o`.  A JS object cannot carry a
duplicate key, so removing every entry named `k` agrees with deleting the
single own property `k`. -/
def deleteKey (o : Obj) (k : String) : Obj := o.filter (fun kv => kv.1 != k)

mutual
/-- JS string conversion used by template literals (backtick strings in the
source); `null` inside an array renders as the empty string, as in JS
`Array.prototype.toString`. -/
def jsDisplay : JValue → String
  | .str s => s
  | .num n => toString n
  | .bool true => "true"
  | .bool false => "false"
  | .null => "null"
  | .arr vs => jsDisplayList vs
  | .obj _ => "[object Object]"

def jsDisplayList : List JValue → String
  | [] => ""
  | [JValue.null] => ""
  | [v] => jsDisplay v
  | JValue.null :: vs => "," ++ jsDisplayList vs
  | v :: vs => jsDisplay v ++ "," ++ jsDisplayList vs
end

/-- ASCII lower-casing of one character; the strings the node lower-cases
(HTTP verbs, resource types, UTC date strings, database identifiers) are
ASCII, where JS `toLowerCase` agrees with this. -/
def asciiLowerChar (c : Char) : Char :=
  if 65 ≤ c.toNat ∧ c.toNat ≤ 90 then Char.ofNat (c.toNat + 32) else c

/-- ASCII upper-casing of one character (JS `toUpperCase` on ASCII input). -/
def asciiUpperChar (c : Char) : Char :=
  if 97 ≤ c.toNat ∧ c.toNat ≤ 122 then Char.ofNat (c.toNat - 32) else c

/-- JS `String.prototype.toLowerCase` on ASCII input. -/
def asciiLower (s : String) : String := String.mk (s.data.map asciiLowerChar)

/-- JS `String.prototype.toUpperCase` on ASCII input. -/
def asciiUpper (s : String) : String := String.mk (s.data.map asciiUpperChar)

/-- JS `String.prototype.trim` (whitespace at both ends removed). -/
def jsTrim (s : String) : String :=
  String.mk (((s.data.dropWhile Char.isWhitespace).reverse.dropWhile Char.isWhitespace).reverse)

/-- JS `String.prototype.split(',')` (the node only ever splits on a comma). -/
def splitOnComma (cs : List Char) : List String :=
  match cs with
  | [] => [""]
  | c :: rest =>
    let r := splitOnComma rest
    if c = ',' then "" :: r
    else match r with
      | [] => [String.mk [c]]
      | h :: t => (String.mk [c] ++ h) :: t

/-- JS `a.startsWith(b)` over character lists. -/
def startsWithSeq : List Char → List Char → Bool
  | _, [] => true
  | [], _ :: _ => false
  | c :: cs, p :: ps => c == p && startsWithSeq cs ps

/-- JS `a.includes(b)` over character lists. -/
def containsSeq : List Char → List Char → Bool
  | [], p => p.isEmpty
  | c :: cs, p => startsWithSeq (c :: cs) p || containsSeq cs p

/-- JS `a.includes(b)` on strings. -/
def containsSub (s pat : String) : Bool := containsSeq s.data pat.data

/-- JS `endpoint.replace(/\/$/, '')`: drop one trailing slash. -/
def stripTrailingSlash (s : String) : String :=
  match s.data.getLast? with
  | some c => if c = '/' then String.mk (s.data.dropLast) else s
  | none => s

/-- JS `p.replace('/', '')`: remove only the first occurrence of a slash
(the source of the known hierarchical-partition-key limitation). -/
def removeFirstSlashAux : List Char → List Char
  | [] => []
  | c :: cs => if c = '/' then cs else c :: removeFirstSlashAux cs

def removeFirstSlash (s : String) : String := String.mk (removeFirstSlashAux s.data)

/-- JS `v || d` for an optional string parameter (absent and empty are falsy). -/
def orDefault (v : Option String) (d : String) : String :=
  match v with
  | some s => if s = "" then d else s
  | none => d

/-- The `options` collection of the select operation. -/
structure SelectOptions where
  excludeVectorFields : Option Bool
  vectorFieldNames : Option String

/-- `(options.vectorFieldNames || 'vector,embedding,embeddings').split(',')
.map(f => f.trim()).filter(f => f.length > 0)`. -/
def vectorFieldList (names : Option String) : List String :=
  (((splitOnComma (orDefault names "vector,embedding,embeddings").data).map jsTrim).filter
    (fun f => f.length > 0))

/-- Per result row: when exclusion is on, shallow-copy the row and delete each
configured field name (lines 790-804 of the SDK node; identical code in
`Cosmos.node.ts`). -/
def processRow (options : SelectOptions) (resource : Obj) : Obj :=
  if options.excludeVectorFields.getD false then
    (vectorFieldList options.vectorFieldNames).foldl deleteKey resource
  else resource

/-- `azureCosmosSdkApi` credential shape: `{endpoint, key}`. -/
structure MasterKeyCredentials where
  endpoint : String
  key : String

/-- `azureCosmosSdkEntraIdApi` credential shape.  `expires_at` is modelled as
the millisecond value `new Date(oauthTokenData.expires_at).getTime()`; a
falsy raw `expires_at` is modelled as `none`.  `access_token` is `none` when
the property is absent. -/
structure EntraCredentials where
  endpoint : String
  access_token : Option String
  expires_at : Option Int
  refreshBeforeExpirySeconds : Option Int

/-- The constructed `CosmosClient`: either `new CosmosClient({endpoint, key})`
or `new CosmosClient({endpoint, aadCredentials})` where the token credential
wraps the (unchecked) OAuth access token and an expiry timestamp. -/
inductive ClientHandle where
  | masterKey (endpoint key : String)
  | entraId (endpoint : String) (accessToken : Option String) (expiresOnTimestamp : Int)

/-- The remote failure objects thrown by the Cosmos SDK: a numeric status
`code` (when present) and a `message`. -/
structure RemoteFailure where
  code : Option Nat
  message : String

/-- `err.message || String(error)`: an `Error` with an empty message
stringifies as `"Error"`. -/
def errorText (message : String) : String := if message = "" then "Error" else message

/-- The vector-index option collection of createContainer. -/
structure VectorIndexConfig where
  vectorPath : Option String
  vectorType : Option String
  dimensions : Option Int
  distanceFunction : Option String
  indexType : Option String

/-- `containerDef.vectorEmbeddingPolicy.vectorEmbeddings[0]`. -/
structure VectorEmbeddingSpec where
  path : String
  dataType : String
  dimensions : Int
  distanceFunction : String

/-- The indexing policy assembled by createContainer. -/
structure IndexingPolicy where
  automatic : Bool
  indexingMode : String
  includedPaths : List String
  excludedPaths : List String
  vectorIndexes : List (String × String)
  fullTextIndexes : List String

/-- The container definition passed to `containers.createIfNotExists`. -/
structure ContainerDef where
  id : String
  partitionKeyPaths : List String
  partitionKeyKind : String
  vectorEmbeddingPolicy : Option VectorEmbeddingSpec
  fullTextPolicy : Option (String × List String)
  indexingPolicy : IndexingPolicy

/-- One outbound SDK call, recorded in order. -/
inductive RemoteCall where
  | queryItems (databaseName containerName sqlQuery : String)
  | readContainer (databaseName containerName : String)
  | createItem (databaseName containerName : String) (document : Obj)
  | upsertItem (databaseName containerName : String) (document : Obj)
  | deleteItem (databaseName containerName : String) (id pk : JValue)
  | createDatabaseIfNotExists (id : String) (throughput : Option Int)
  | createContainerIfNotExists (databaseName : String) (containerDef : ContainerDef)
      (throughput : Option Int)
  | deleteDatabase (databaseName : String)
  | deleteContainer (databaseName containerName : String)
  | readAllDatabases

/-- The Cosmos DB service as an oracle: for each kind of outbound call, the
response the service would give.  `readContainer` returns
`containerDef.resource?.partitionKey?.paths` (collapsed to one option),
`createItem`/`upsertItem` return the optional response `resource`,
`createDatabaseIfNotExists`/`createContainerIfNotExists` return
`(statusCode, resource id)`. -/
structure Service where
  queryItems : ClientHandle → String → String → String → Except RemoteFailure (List Obj)
  readContainer : ClientHandle → String → String → Except RemoteFailure (Option (List String))
  createItem : ClientHandle → String → String → Obj → Except RemoteFailure (Option Obj)
  upsertItem : ClientHandle → String → String → Obj → Except RemoteFailure (Option Obj)
  deleteItem : ClientHandle → String → String → JValue → JValue → Except RemoteFailure Unit
  createDatabaseIfNotExists : ClientHandle → String → Option Int →
      Except RemoteFailure (Nat × String)
  createContainerIfNotExists : ClientHandle → String → ContainerDef → Option Int →
      Except RemoteFailure (Nat × String)
  deleteDatabase : ClientHandle → String → Except RemoteFailure Unit
  deleteContainer : ClientHandle → String → String → Except RemoteFailure Unit
  readAllDatabases : ClientHandle → Except RemoteFailure (List String)

/-- The whole external world of one execution: both credential stores, the
current time (`Date.now()`, milliseconds) and the service oracle. -/
structure ExecEnv where
  masterCreds : MasterKeyCredentials
  entraCreds : EntraCredentials
  now : Int
  svc : Service

/-- `oauthTokenData.expires_at ? new Date(oauthTokenData.expires_at).getTime() : 0`. -/
def expiresAtMs (expires_at : Option Int) : Int :=
  match expires_at with
  | some t => t
  | none => 0

/-- Lines 704-761: resolve the client once, before the record loop, from the
authentication type read at parameter index 0.  In the entraId branch a
proactive refresh probe (`GET <endpoint>/dbs`) is issued when the token
expires within the buffer; its outcome is swallowed, so only the probe URL is
recorded.  No token-presence check happens on this path. -/
def resolveClient (env : ExecEnv) (authenticationType : String) :
    List String × ClientHandle :=
  if authenticationType = "entraId" then
    let expiresAt := expiresAtMs env.entraCreds.expires_at
    let buffer := match env.entraCreds.refreshBeforeExpirySeconds with
      | some b => if b = 0 then 900 else b
      | none => 900
    let probes := if expiresAt - env.now < 1000 * buffer then
        [stripTrailingSlash env.entraCreds.endpoint ++ "/dbs"]
      else []
    (probes, ClientHandle.entraId env.entraCreds.endpoint env.entraCreds.access_token
      (if expiresAt = 0 then env.now + 3600000 else expiresAt))
  else
    ([], ClientHandle.masterKey env.masterCreds.endpoint env.masterCreds.key)

/-- `containerDef.resource?.partitionKey?.paths?.[0]?.replace('/', '') || 'id'`. -/
def partitionKeyPathOf (paths : Option (List String)) : String :=
  match paths with
  | some (p :: _) =>
    let r := removeFirstSlash p
    if r = "" then "id" else r
  | _ => "id"

def idMissingMsg : String := "Document must include an ID field"

def pkDocMissingMsg (pkPath : String) : String :=
  "Document must include the partition key field '" ++ pkPath ++
    "'. Add this field to your document."

def pkQueryMissingMsg (pkPath : String) : String :=
  "Query must include the partition key field '" ++ pkPath ++
    "'. Use: SELECT * FROM c WHERE ... or SELECT c.id, c." ++ pkPath ++ " FROM c WHERE ..."

def pkRowMissingMsg (pkPath : String) : String :=
  "Missing partition key field '" ++ pkPath ++
    "' in query results. Use SELECT * or include c." ++ pkPath ++ " in SELECT clause."

def insertConflictMsg (idValue : JValue) : String :=
  "Document with ID '" ++ jsDisplay idValue ++
    "' already exists. Use Create or Update operation to update existing documents."

/-- What one handler produced: its ordered remote-call trace paired with either
the objects pushed onto `returnData` or the thrown error's message.  Every
handler in the source performs all of its `returnData.push` calls after its
last possible throw, so a record's pushes are all-or-nothing. -/
abbrev HandlerResult := List (ClientHandle × RemoteCall) × Except String (List Obj)

/-- Lines 778-810: SELECT.  Execute the query text as given; per row apply the
optional vector-field exclusion; one push per result row. -/
def handleSelect (svc : Service) (client : ClientHandle)
    (databaseName containerName sqlQuery : String) (options : SelectOptions) : HandlerResult :=
  match svc.queryItems client databaseName containerName sqlQuery with
  | .error f => ([(client, .queryItems databaseName containerName sqlQuery)], .error f.message)
  | .ok resources =>
    ([(client, .queryItems databaseName containerName sqlQuery)],
      .ok (resources.map (processRow options)))

/-- Lines 811-858: INSERT.  The `document` parameter carries the result of
`typeof documentJson === 'string' ? JSON.parse(documentJson) : documentJson`
(`Except.error` for a JSON.parse throw). -/
def handleInsert (svc : Service) (client : ClientHandle)
    (databaseName containerName : String) (document : Except String Obj) : HandlerResult :=
  match document with
  | .error parseMsg => ([], .error parseMsg)
  | .ok doc =>
    if jsTruthyOpt (jLookup doc "id") = false then ([], .error idMissingMsg)
    else
      let idValue := (jLookup doc "id").getD JValue.null
      match svc.readContainer client databaseName containerName with
      | .error f => ([(client, .readContainer databaseName containerName)], .error f.message)
      | .ok paths =>
        let pkPath := partitionKeyPathOf paths
        if (jLookup doc pkPath).isNone then
          ([(client, .readContainer databaseName containerName)], .error (pkDocMissingMsg pkPath))
        else
          let trace := [(client, RemoteCall.readContainer databaseName containerName),
            (client, RemoteCall.createItem databaseName containerName doc)]
          match svc.createItem client databaseName containerName doc with
          | .ok (some resource) => (trace, .ok [resource])
          | .ok none => (trace, .error "Insert operation did not return a resource")
          | .error f =>
            if f.code = some 409 then (trace, .error (insertConflictMsg idValue))
            else (trace, .error f.message)

/-- Lines 859-888: UPSERT.  Same precondition checks as insert; the upsert
call is not wrapped in a conflict-mapping try; on a missing response body the
submitted document itself is pushed. -/
def handleUpsert (svc : Service) (client : ClientHandle)
    (databaseName containerName : String) (document : Except String Obj) : HandlerResult :=
  match document with
  | .error parseMsg => ([], .error parseMsg)
  | .ok doc =>
    if jsTruthyOpt (jLookup doc "id") = false then ([], .error idMissingMsg)
    else
      match svc.readContainer client databaseName containerName with
      | .error f => ([(client, .readContainer databaseName containerName)], .error f.message)
      | .ok paths =>
        let pkPath := partitionKeyPathOf paths
        if (jLookup doc pkPath).isNone then
          ([(client, .readContainer databaseName containerName)], .error (pkDocMissingMsg pkPath))
        else
          let trace := [(client, RemoteCall.readContainer databaseName containerName),
            (client, RemoteCall.upsertItem databaseName containerName doc)]
          match svc.upsertItem client databaseName containerName doc with
          | .error f => (trace, .error f.message)
          | .ok resource => (trace, .ok [resource.getD doc])

/-- Lines 893-921: DELETE byId. -/
def handleDeleteById (svc : Service) (client : ClientHandle)
    (databaseName containerName documentId partitionKeyValue : String) : HandlerResult :=
  let trace := [(client, RemoteCall.deleteItem databaseName containerName
    (JValue.str documentId) (JValue.str partitionKeyValue))]
  match svc.deleteItem client databaseName containerName (JValue.str documentId)
      (JValue.str partitionKeyValue) with
  | .ok _ =>
    (trace, .ok [[("success", JValue.bool true), ("deletedCount", JValue.num 1),
      ("deletedId", JValue.str documentId), ("partitionKeyValue", JValue.str partitionKeyValue),
      ("message", JValue.str ("Successfully deleted document " ++ documentId))]])
  | .error f =>
    if f.code = some 404 then
      (trace, .error ("Document with ID '" ++ documentId ++ "' and partition key '" ++
        partitionKeyValue ++ "' not found"))
    else (trace, .error f.message)

/-- Accumulators of the per-row deletion loop (lines 944-990): trace of
attempted deletions, `deletedCount`, `deletedIds`, `errors` (id, error). -/
structure DeleteAcc where
  trace : List (ClientHandle × RemoteCall)
  deletedCount : Nat
  deletedIds : List JValue
  errors : List (JValue × String)

/-- Lines 962-990: delete each queried row, collecting per-row errors without
aborting; a falsy `resource.id` yields an `'unknown'` error entry, a missing
partition-key value yields an error entry naming the field. -/
def deleteLoop (svc : Service) (client : ClientHandle)
    (databaseName containerName pkPath : String) : List Obj → DeleteAcc
  | [] => ⟨[], 0, [], []⟩
  | resource :: rest =>
    let acc := deleteLoop svc client databaseName containerName pkPath rest
    if jsTruthyOpt (jLookup resource "id") = false then
      ⟨acc.trace, acc.deletedCount, acc.deletedIds,
        (JValue.str "unknown", "Document missing id field") :: acc.errors⟩
    else
      let idValue := (jLookup resource "id").getD JValue.null
      match jLookup resource pkPath with
      | none =>
        ⟨acc.trace, acc.deletedCount, acc.deletedIds,
          (idValue, pkRowMissingMsg pkPath) :: acc.errors⟩
      | some pkValue =>
        let call := (client, RemoteCall.deleteItem databaseName containerName idValue pkValue)
        match svc.deleteItem client databaseName containerName idValue pkValue with
        | .ok _ => ⟨call :: acc.trace, acc.deletedCount + 1, idValue :: acc.deletedIds, acc.errors⟩
        | .error f =>
          ⟨call :: acc.trace, acc.deletedCount, acc.deletedIds,
            (idValue, errorText f.message) :: acc.errors⟩

/-- The summary record pushed when the delete query matched nothing. -/
def zeroMatchSummary : Obj :=
  [("success", JValue.bool true), ("deletedCount", JValue.num 0),
   ("totalQueried", JValue.num 0), ("deletedIds", JValue.arr []),
   ("message", JValue.str "No documents matched the query")]

/-- Lines 992-1002: the aggregate summary record; `errors` is present only
when non-empty (`errors.length > 0 ? errors : undefined`). -/
def deleteByQuerySummary (deletedCount totalQueried : Nat) (deletedIds : List JValue)
    (errors : List (JValue × String)) : Obj :=
  [("success", JValue.bool errors.isEmpty),
   ("deletedCount", JValue.num (Int.ofNat deletedCount)),
   ("totalQueried", JValue.num (Int.ofNat totalQueried)),
   ("deletedIds", JValue.arr deletedIds)] ++
  (if errors.isEmpty then [] else
    [("errors", JValue.arr (errors.map (fun e => JValue.obj
      [("id", e.1), ("error", JValue.str e.2)])))]) ++
  [("message", JValue.str ("Successfully deleted " ++ toString deletedCount ++ " of " ++
    toString totalQueried ++ " document(s)"))]

/-- Lines 922-1003: DELETE byQuery.  Query, zero-match summary, partition-key
discovery via container metadata, fail-closed first-row check, then the
partial-failure-tolerant per-row loop and one aggregate summary push. -/
def handleDeleteByQuery (svc : Service) (client : ClientHandle)
    (databaseName containerName deleteQuery : String) : HandlerResult :=
  match svc.queryItems client databaseName containerName deleteQuery with
  | .error f => ([(client, .queryItems databaseName containerName deleteQuery)], .error f.message)
  | .ok resources =>
    let queryCall := (client, RemoteCall.queryItems databaseName containerName deleteQuery)
    match resources with
    | [] => ([queryCall], .ok [zeroMatchSummary])
    | first :: rest =>
      match svc.readContainer client databaseName containerName with
      | .error f =>
        ([queryCall, (client, .readContainer databaseName containerName)], .error f.message)
      | .ok paths =>
        let pkPath := partitionKeyPathOf paths
        if (jLookup first pkPath).isNone then
          ([queryCall, (client, .readContainer databaseName containerName)],
            .error (pkQueryMissingMsg pkPath))
        else
          let acc := deleteLoop svc client databaseName containerName pkPath (first :: rest)
          ([queryCall, (client, .readContainer databaseName containerName)] ++ acc.trace,
            .ok [deleteByQuerySummary acc.deletedCount (first :: rest).length acc.deletedIds
              acc.errors])

/-- `databaseThroughput && databaseThroughput >= 400` (likewise for
containers): the throughput is sent only when truthy and at least 400. -/
def throughputOption (throughput : Int) : Option Int :=
  if throughput != 0 && throughput ≥ 400 then some throughput else none

/-- Lines 1007-1038: CREATE DATABASE via `databases.createIfNotExists`. -/
def handleCreateDatabase (svc : Service) (client : ClientHandle)
    (newDatabaseName : String) (databaseThroughput : Int) : HandlerResult :=
  let opt := throughputOption databaseThroughput
  let trace := [(client, RemoteCall.createDatabaseIfNotExists newDatabaseName opt)]
  match svc.createDatabaseIfNotExists client newDatabaseName opt with
  | .ok (statusCode, databaseId) =>
    (trace, .ok [[("success", JValue.bool true),
      ("statusCode", JValue.num (Int.ofNat statusCode)),
      ("databaseId", JValue.str databaseId),
      ("throughput", if databaseThroughput != 0 then JValue.num databaseThroughput
        else JValue.str "serverless/container-level"),
      ("message", JValue.str (if statusCode = 201 then
          "Database '" ++ newDatabaseName ++ "' created successfully"
        else "Database '" ++ newDatabaseName ++ "' already exists"))]])
  | .error f => (trace, .error f.message)

/-- Lines 1039-1198: CREATE CONTAINER.  Assembles the container definition,
the indexing policy (vector path excluded from standard indexing when a
vector index is requested, full-text index entries appended when requested)
and the response record. -/
def handleCreateContainer (svc : Service) (client : ClientHandle)
    (databaseName newContainerName partitionKeyPath : String) (containerThroughput : Int)
    (enableVectorIndex enableFullTextIndex : Bool) (vectorIndexConfig : VectorIndexConfig)
    (fullTextIndexPaths : String) : HandlerResult :=
  let vectorPath := orDefault vectorIndexConfig.vectorPath "/vector"
  let vectorType := orDefault vectorIndexConfig.vectorType "float32"
  let dimensions := match vectorIndexConfig.dimensions with
    | some d => if d = 0 then 1536 else d
    | none => 1536
  let distanceFunction := orDefault vectorIndexConfig.distanceFunction "cosine"
  let indexType := orDefault vectorIndexConfig.indexType "quantizedFlat"
  let fullTextPaths := ((splitOnComma fullTextIndexPaths.data).map jsTrim).filter
    (fun p => p.length > 0)
  let indexingPolicy : IndexingPolicy :=
    { automatic := true, indexingMode := "consistent", includedPaths := ["/*"],
      excludedPaths := ["/\"_etag\"/?"] ++
        (if enableVectorIndex then [vectorPath ++ "/*"] else []),
      vectorIndexes := if enableVectorIndex then [(vectorPath, indexType)] else [],
      fullTextIndexes := if enableFullTextIndex then fullTextPaths else [] }
  let containerDef : ContainerDef :=
    { id := newContainerName, partitionKeyPaths := [partitionKeyPath],
      partitionKeyKind := "Hash",
      vectorEmbeddingPolicy := if enableVectorIndex then
          some ⟨vectorPath, vectorType, dimensions, distanceFunction⟩
        else none,
      fullTextPolicy := if enableFullTextIndex then some ("en-US", fullTextPaths) else none,
      indexingPolicy := indexingPolicy }
  let opt := throughputOption containerThroughput
  let trace := [(client, RemoteCall.createContainerIfNotExists databaseName containerDef opt)]
  match svc.createContainerIfNotExists client databaseName containerDef opt with
  | .ok (statusCode, containerId) =>
    (trace, .ok [[("success", JValue.bool true),
        ("statusCode", JValue.num (Int.ofNat statusCode)),
        ("containerId", JValue.str containerId),
        ("databaseId", JValue.str databaseName),
        ("partitionKey", JValue.str partitionKeyPath),
        ("throughput", if containerThroughput != 0 then JValue.num containerThroughput
          else JValue.str "inherited/serverless")] ++
      (if enableVectorIndex then
        [("vectorIndex", JValue.obj [("enabled", JValue.bool true),
          ("path", JValue.str vectorPath), ("type", JValue.str indexType),
          ("dimensions", JValue.num dimensions),
          ("distanceFunction", JValue.str distanceFunction)])]
       else []) ++
      (if enableFullTextIndex then
        [("fullTextIndex", JValue.obj [("enabled", JValue.bool true),
          ("paths", JValue.arr (((splitOnComma fullTextIndexPaths.data).map jsTrim).map
            JValue.str))])]
       else []) ++
      [("message", JValue.str (if statusCode = 201 then
          "Container '" ++ newContainerName ++ "' created successfully in database '" ++
            databaseName ++ "'"
        else "Container '" ++ newContainerName ++ "' already exists in database '" ++
            databaseName ++ "'"))]])
  | .error f =>
    if f.code = some 409 then
      (trace, .error ("Container '" ++ newContainerName ++ "' already exists in database '" ++
        databaseName ++ "'"))
    else (trace, .error f.message)

/-- Lines 1201-1228: DELETE DATABASE. -/
def handleDeleteDatabase (svc : Service) (client : ClientHandle)
    (databaseToDelete : String) : HandlerResult :=
  let trace := [(client, RemoteCall.deleteDatabase databaseToDelete)]
  match svc.deleteDatabase client databaseToDelete with
  | .ok _ =>
    (trace, .ok [[("success", JValue.bool true), ("databaseId", JValue.str databaseToDelete),
      ("message", JValue.str ("Database '" ++ databaseToDelete ++ "' deleted successfully"))]])
  | .error f =>
    if f.code = some 404 then
      (trace, .error ("Database '" ++ databaseToDelete ++ "' not found"))
    else (trace, .error f.message)

/-- Lines 1230-1260: DELETE CONTAINER. -/
def handleDeleteContainer (svc : Service) (client : ClientHandle)
    (databaseName containerToDelete : String) : HandlerResult :=
  let trace := [(client, RemoteCall.deleteContainer databaseName containerToDelete)]
  match svc.deleteContainer client databaseName containerToDelete with
  | .ok _ =>
    (trace, .ok [[("success", JValue.bool true), ("containerId", JValue.str containerToDelete),
      ("databaseId", JValue.str databaseName),
      ("message", JValue.str ("Container '" ++ containerToDelete ++
        "' deleted successfully from database '" ++ databaseName ++ "'"))]])
  | .error f =>
    if f.code = some 404 then
      (trace, .error ("Container '" ++ containerToDelete ++ "' not found in database '" ++
        databaseName ++ "'"))
    else (trace, .error f.message)

/-- The per-record parameter bundle, as resolved at one item index.  Each
variant carries exactly the parameters its handler reads.  The `document`
parameter of insert/upsert is carried already parsed (`Except.error` for a
JSON.parse failure).  `deleteMode` is kept as the raw string: any value other
than `'byId'` takes the byQuery branch, as in the source.  An operation
string matching no handler (`unknownOp`) falls through every branch. -/
inductive Operation where
  | select (databaseName containerName sqlQuery : String) (options : SelectOptions)
  | insert (databaseName containerName : String) (document : Except String Obj)
  | upsert (databaseName containerName : String) (document : Except String Obj)
  | deleteDoc (databaseName containerName deleteMode documentId partitionKeyValue
      deleteQuery : String)
  | createDatabase (newDatabaseName : String) (databaseThroughput : Int)
  | createContainer (databaseName newContainerName partitionKeyPath : String)
      (containerThroughput : Int) (enableVectorIndex enableFullTextIndex : Bool)
      (vectorIndexConfig : VectorIndexConfig) (fullTextIndexPaths : String)
  | deleteDatabase (databaseToDelete : String)
  | deleteContainer (databaseName containerToDelete : String)
  | unknownOp (name : String)

/-- Lines 765-1260: the body of the per-record `try` block — dispatch on the
operation string to the matching handler.  Exactly one handler runs per
record; an unknown operation pushes nothing and throws nothing. -/
def processItem (svc : Service) (client : ClientHandle) : Operation → HandlerResult
  | .select databaseName containerName sqlQuery options =>
    handleSelect svc client databaseName containerName sqlQuery options
  | .insert databaseName containerName document =>
    handleInsert svc client databaseName containerName document
  | .upsert databaseName containerName document =>
    handleUpsert svc client databaseName containerName document
  | .deleteDoc databaseName containerName deleteMode documentId partitionKeyValue deleteQuery =>
    if deleteMode = "byId" then
      handleDeleteById svc client databaseName containerName documentId partitionKeyValue
    else handleDeleteByQuery svc client databaseName containerName deleteQuery
  | .createDatabase newDatabaseName databaseThroughput =>
    handleCreateDatabase svc client newDatabaseName databaseThroughput
  | .createContainer databaseName newContainerName partitionKeyPath containerThroughput
      enableVectorIndex enableFullTextIndex vectorIndexConfig fullTextIndexPaths =>
    handleCreateContainer svc client databaseName newContainerName partitionKeyPath
      containerThroughput enableVectorIndex enableFullTextIndex vectorIndexConfig
      fullTextIndexPaths
  | .deleteDatabase databaseToDelete => handleDeleteDatabase svc client databaseToDelete
  | .deleteContainer databaseName containerToDelete =>
    handleDeleteContainer svc client databaseName containerToDelete
  | .unknownOp _ => ([], .ok [])

/-- One entry of the host-facing output stream: `{json, pairedItem}`. -/
structure OutputRecord where
  json : Obj
  pairedItem : Nat

/-- The observable result of the record loop.  `ok` is the returned
`returnData`; `failed produced itemIndex message` models the rethrown
`NodeOperationError` (stop mode): `produced` are the records already pushed
onto `returnData` before the throw, `itemIndex` the offending record index,
`message` the wrapped error's message. -/
inductive ExecResult where
  | ok (output : List OutputRecord)
  | failed (produced : List OutputRecord) (itemIndex : Nat) (message : String)

/-- Prepend already-produced records to a loop result. -/
def consOutput (records : List OutputRecord) : ExecResult → ExecResult
  | .ok output => .ok (records ++ output)
  | .failed produced itemIndex message => .failed (records ++ produced) itemIndex message

/-- Lines 763-1273: the record loop with its per-record try/catch.  On handler
success every pushed object is tagged with the current index; on handler
failure, continue-mode pushes one `{error: message}` record tagged with the
index and proceeds, stop-mode rethrows carrying the index.  The first
component collects every remote call made (in order) before the loop
returned or threw. -/
def runItems (svc : Service) (client : ClientHandle) (continueOnFail : Bool)
    (params : Nat → Operation) :
    Nat → Nat → List (ClientHandle × RemoteCall) × ExecResult
  | _, 0 => ([], .ok [])
  | itemIndex, count + 1 =>
    let step := processItem svc client (params itemIndex)
    match step.2 with
    | .ok objs =>
      let rest := runItems svc client continueOnFail params (itemIndex + 1) count
      (step.1 ++ rest.1, consOutput (objs.map (fun o => ⟨o, itemIndex⟩)) rest.2)
    | .error message =>
      if continueOnFail then
        let rest := runItems svc client continueOnFail params (itemIndex + 1) count
        (step.1 ++ rest.1,
          consOutput [⟨[("error", JValue.str message)], itemIndex⟩] rest.2)
      else (step.1, .failed [] itemIndex message)

/-- What one whole execution did: the pre-loop refresh-probe URLs, the remote
calls of the record loop, and the loop's result. -/
structure ExecOutcome where
  preTrace : List String
  trace : List (ClientHandle × RemoteCall)
  result : ExecResult

/-- Lines 696-1276: `AzureCosmosSdk.execute`.  The authentication type is read
at parameter index 0 only (`getNodeParameter('authenticationType', 0)`), the
client is resolved once, and the loop runs over input indices `0..n-1`.
`authTypeParam` is the per-index resolvable `authenticationType` parameter
the host could supply. -/
def execute (env : ExecEnv) (authTypeParam : Nat → String) (params : Nat → Operation)
    (n : Nat) (continueOnFail : Bool) : ExecOutcome :=
  let rc := resolveClient env (authTypeParam 0)
  let run := runItems env.svc rc.2 continueOnFail params 0 n
  ⟨rc.1, run.1, run.2⟩

/-- The block of output records contributed by one input record.  The loop's
output is the concatenation of these blocks in index order. -/
def itemBlock (svc : Service) (client : ClientHandle) (continueOnFail : Bool)
    (params : Nat → Operation) (itemIndex : Nat) : List OutputRecord :=
  match (processItem svc client (params itemIndex)).2 with
  | .ok objs => objs.map (fun o => ⟨o, itemIndex⟩)
  | .error message =>
    if continueOnFail then [⟨[("error", JValue.str message)], itemIndex⟩] else []

/-- Whether the handler of record `itemIndex` returned without throwing. -/
def itemOk (svc : Service) (client : ClientHandle) (params : Nat → Operation)
    (itemIndex : Nat) : Bool :=
  match (processItem svc client (params itemIndex)).2 with
  | .ok _ => true
  | .error _ => false

/-- `Cosmos.node.ts` lines 94-158: the legacy node.  Master-key client from
the `cosmosDb` credential, then the identical per-record loop restricted to
the select pipeline; embedded as the same loop over select operations. -/
def cosmosExecute (svc : Service) (endpoint key : String)
    (params : Nat → Operation) (n : Nat) (continueOnFail : Bool) :
    List (ClientHandle × RemoteCall) × ExecResult :=
  runItems svc (ClientHandle.masterKey endpoint key) continueOnFail params 0 n

/-- Insert into a name-sorted list (code-point order models the source's
`localeCompare` comparator on the identifiers involved). -/
def insertSorted (x : String × String) : List (String × String) → List (String × String)
  | [] => [x]
  | y :: ys => if x.1 ≤ y.1 then x :: y :: ys else y :: insertSorted x ys

/-- `results.sort((a, b) => a.name.localeCompare(b.name))`. -/
def sortByName (l : List (String × String)) : List (String × String) :=
  l.foldr insertSorted []

/-- Lines 1278-1340: the `getDatabases` list-search method.  Unlike `execute`,
its entraId branch throws `'No valid access token available. Please
re-authenticate.'` when the token is missing or empty, before any remote
call; the surrounding catch prefixes every failure with
`'Failed to load databases: '`. -/
def getDatabases (env : ExecEnv) (authenticationType : String) (filterStr : Option String) :
    List (ClientHandle × RemoteCall) × Except String (List (String × String)) :=
  let continue_ := fun (client : ClientHandle) =>
    match env.svc.readAllDatabases client with
    | .error f =>
      ([(client, RemoteCall.readAllDatabases)],
        Except.error ("Failed to load databases: " ++ f.message))
    | .ok ids =>
      let results := ids.map (fun i => (i, i))
      let filtered := if jsTruthyStrOpt filterStr then
          results.filter (fun p => containsSub (asciiLower p.1) (asciiLower (filterStr.getD "")))
        else results
      ([(client, RemoteCall.readAllDatabases)], Except.ok (sortByName filtered))
  if authenticationType = "entraId" then
    if jsTruthyStrOpt env.entraCreds.access_token = false then
      ([], .error "Failed to load databases: No valid access token available. Please re-authenticate.")
    else
      let tokenExpiry := match env.entraCreds.expires_at with
        | some t => t
        | none => env.now + 3600000
      continue_ (ClientHandle.entraId env.entraCreds.endpoint env.entraCreds.access_token
        tokenExpiry)
  else continue_ (ClientHandle.masterKey env.masterCreds.endpoint env.masterCreds.key)

/-- Truncation to a 32-bit word. -/
def w32 (n : Nat) : Nat := n % 4294967296

/-- 32-bit right rotation (argument below `2 ^ 32`). -/
def rotr32 (n x : Nat) : Nat := w32 ((x >>> n) ||| (x <<< (32 - n)))

def bigSigma0 (x : Nat) : Nat := rotr32 2 x ^^^ rotr32 13 x ^^^ rotr32 22 x
def bigSigma1 (x : Nat) : Nat := rotr32 6 x ^^^ rotr32 11 x ^^^ rotr32 25 x
def smallSigma0 (x : Nat) : Nat := rotr32 7 x ^^^ rotr32 18 x ^^^ (x >>> 3)
def smallSigma1 (x : Nat) : Nat := rotr32 17 x ^^^ rotr32 19 x ^^^ (x >>> 10)
def chFn (x y z : Nat) : Nat := (x &&& y) ^^^ ((x ^^^ 4294967295) &&& z)
def majFn (x y z : Nat) : Nat := (x &&& y) ^^^ (x &&& z) ^^^ (y &&& z)

def sha256K : List Nat :=
  [1116352408, 1899447441, 3049323471, 3921009573, 961987163,
   1508970993, 2453635748, 2870763221, 3624381080, 310598401,
   607225278, 1426881987, 1925078388, 2162078206, 2614888103,
   3248222580, 3835390401, 4022224774, 264347078, 604807628,
   770255983, 1249150122, 1555081692, 1996064986, 2554220882,
   2821834349, 2952996808, 3210313671, 3336571891, 3584528711,
   113926993, 338241895, 666307205, 773529912, 1294757372,
   1396182291, 1695183700, 1986661051, 2177026350, 2456956037,
   2730485921, 2820302411, 3259730800, 3345764771, 3516065817,
   3600352804, 4094571909, 275423344, 430227734, 506948616,
   659060556, 883997877, 958139571, 1322822218, 1537002063,
   1747873779, 1955562222, 2024104815, 2227730452, 2361852424,
   2428436474, 2756734187, 3204031479, 3329325298]

def sha256H0 : List Nat :=
  [1779033703, 3144134277, 1013904242, 2773480762,
   1359893119, 2600822924, 528734635, 1541459225]

/-- Extend 16 schedule words to 64. -/
def extendSchedule (block : List Nat) : List Nat :=
  (List.range 48).foldl (fun acc i =>
    acc ++ [w32 (smallSigma1 (acc.getD (i + 14) 0) + acc.getD (i + 9) 0 +
      smallSigma0 (acc.getD (i + 1) 0) + acc.getD i 0)]) block

/-- One SHA-256 compression over a 16-word block. -/
def compressBlock (h : List Nat) (block : List Nat) : List Nat :=
  let w := extendSchedule block
  let final := (List.range 64).foldl (fun st i =>
    match st with
    | [a, b, c, d, e, f, g, hw] =>
      let t1 := w32 (hw + bigSigma1 e + chFn e f g + sha256K.getD i 0 + w.getD i 0)
      let t2 := w32 (bigSigma0 a + majFn a b c)
      [w32 (t1 + t2), a, b, c, w32 (d + t1), e, f, g]
    | other => other) h
  List.zipWith (fun x y => w32 (x + y)) h final

/-- Big-endian 8-byte length field. -/
def lengthBytes64 (n : Nat) : List Nat :=
  (List.range 8).map (fun i => (n >>> (8 * (7 - i))) % 256)

/-- SHA-256 padding of a byte message. -/
def sha256Pad (msg : List Nat) : List Nat :=
  msg ++ [128] ++ List.replicate ((64 - ((msg.length + 9) % 64)) % 64) 0 ++
    lengthBytes64 (8 * msg.length)

/-- Split a byte list into chunks of size `k`. -/
def chunked (l : List Nat) (k : Nat) : List (List Nat) :=
  (List.range ((l.length + k - 1) / k)).map (fun i => (l.drop (i * k)).take k)

/-- Big-endian bytes-to-words. -/
def wordsOfBytes (bs : List Nat) : List Nat :=
  (List.range (bs.length / 4)).map (fun i =>
    ((bs.getD (4 * i) 0) <<< 24) ||| ((bs.getD (4 * i + 1) 0) <<< 16) |||
      ((bs.getD (4 * i + 2) 0) <<< 8) ||| bs.getD (4 * i + 3) 0)

def bytesOfWord (wv : Nat) : List Nat :=
  [(wv >>> 24) % 256, (wv >>> 16) % 256, (wv >>> 8) % 256, wv % 256]

/-- SHA-256 of a byte message (bytes in, 32 bytes out). -/
def sha256 (msg : List Nat) : List Nat :=
  ((chunked (sha256Pad msg) 64).foldl (fun h b => compressBlock h (wordsOfBytes b))
    sha256H0).flatMap bytesOfWord

/-- HMAC-SHA256 (`createHmac('sha256', key)` with a byte key). -/
def hmacSha256 (key msg : List Nat) : List Nat :=
  let k0 := if key.length > 64 then sha256 key else key
  let k := k0 ++ List.replicate (64 - k0.length) 0
  sha256 ((k.map (fun b => b ^^^ 92)) ++ sha256 ((k.map (fun b => b ^^^ 54)) ++ msg))

def base64Alphabet : String :=
  "ABCDEFGHIJKLMNOPQRSTUVWXYZabcdefghijklmnopqrstuvwxyz0123456789+/"

def base64CharOf (n : Nat) : Char := base64Alphabet.data.getD n 'A'

def base64EncodeGroup : List Nat → List Char
  | [a, b, c] =>
    let n := (a <<< 16) ||| (b <<< 8) ||| c
    [base64CharOf (n >>> 18), base64CharOf ((n >>> 12) % 64),
     base64CharOf ((n >>> 6) % 64), base64CharOf (n % 64)]
  | [a, b] =>
    let n := (a <<< 16) ||| (b <<< 8)
    [base64CharOf (n >>> 18), base64CharOf ((n >>> 12) % 64),
     base64CharOf ((n >>> 6) % 64), '=']
  | [a] =>
    let n := a <<< 16
    [base64CharOf (n >>> 18), base64CharOf ((n >>> 12) % 64), '=', '=']
  | _ => []

/-- `.digest('base64')` / `Buffer.prototype.toString('base64')`. -/
def base64Encode (bs : List Nat) : String :=
  String.mk ((chunked bs 3).flatMap base64EncodeGroup)

/-- Value of one base64 alphabet character (standard and url-safe, as Node
accepts); characters outside the alphabet (including `=`) are skipped. -/
def base64DigitOf (c : Char) : Option Nat :=
  let n := c.toNat
  if 65 ≤ n ∧ n ≤ 90 then some (n - 65)
  else if 97 ≤ n ∧ n ≤ 122 then some (n - 71)
  else if 48 ≤ n ∧ n ≤ 57 then some (n + 4)
  else if n = 43 ∨ n = 45 then some 62
  else if n = 47 ∨ n = 95 then some 63
  else none

def base64DecodeGroup : List Nat → List Nat
  | [a, b, c, d] =>
    let n := (a <<< 18) ||| (b <<< 12) ||| (c <<< 6) ||| d
    [(n >>> 16) % 256, (n >>> 8) % 256, n % 256]
  | [a, b, c] =>
    let n := (a <<< 18) ||| (b <<< 12) ||| (c <<< 6)
    [(n >>> 16) % 256, (n >>> 8) % 256]
  | [a, b] =>
    let n := (a <<< 18) ||| (b <<< 12)
    [(n >>> 16) % 256]
  | _ => []

/-- `Buffer.from(key, 'base64')` on well-formed (or lenient) base64 input. -/
def base64Decode (s : String) : List Nat :=
  (chunked (s.data.filterMap base64DigitOf) 4).flatMap base64DecodeGroup

/-- UTF-8 encoding of one code point. -/
def utf8EncodeCharNat (n : Nat) : List Nat :=
  if n < 128 then [n]
  else if n < 2048 then [192 + n / 64, 128 + n % 64]
  else if n < 65536 then [224 + n / 4096, 128 + (n / 64) % 64, 128 + n % 64]
  else [240 + n / 262144, 128 + (n / 4096) % 64, 128 + (n / 64) % 64, 128 + n % 64]

/-- UTF-8 bytes of a string (what `createHmac(...).update(text)` hashes). -/
def utf8Bytes (s : String) : List Nat := s.data.flatMap (fun c => utf8EncodeCharNat c.toNat)

/-- Characters `encodeURIComponent` leaves unescaped:
letters, digits, and `- _ . ! ~ * ' ( )`. -/
def isUnreservedURI (c : Char) : Bool :=
  let n := c.toNat
  (65 ≤ n && n ≤ 90) || (97 ≤ n && n ≤ 122) || (48 ≤ n && n ≤ 57) ||
    n == 45 || n == 95 || n == 46 || n == 33 || n == 126 || n == 42 ||
    n == 39 || n == 40 || n == 41

def hexUpperChar (n : Nat) : Char := "0123456789ABCDEF".data.getD n '0'

def percentEncodeByte (b : Nat) : List Char := ['%', hexUpperChar (b / 16), hexUpperChar (b % 16)]

/-- JS `encodeURIComponent`. -/
def encodeURIComponent (s : String) : String :=
  String.mk (s.data.flatMap (fun c =>
    if isUnreservedURI c then [c] else (utf8EncodeCharNat c.toNat).flatMap percentEncodeByte))

/-- The slice of `IHttpRequestOptions` the signer reads and writes. -/
structure HttpRequestOptions where
  method : Option String
  headers : List (String × String)

/-- JS object spread with one overriding key: existing keys keep their
position and get the new value, a fresh key is appended. -/
def objSetStr (o : List (String × String)) (k v : String) : List (String × String) :=
  if o.any (fun kv => kv.1 == k) then o.map (fun kv => if kv.1 == k then (k, v) else kv)
  else o ++ [(k, v)]

/-- `credentials/AzureCosmosSdkEntraIdApi.credentials.ts` lines 188-217:
`AzureCosmosSdkApi.authenticate`.  The wall-clock `new Date().toUTCString()`
is passed in as `date`. -/
def authenticate (key date : String) (requestOptions : HttpRequestOptions) :
    HttpRequestOptions :=
  let verb := asciiUpper (orDefault requestOptions.method "GET")
  let resourceType := "dbs"
  let resourceId := ""
  let text := asciiLower verb ++ "\n" ++ asciiLower resourceType ++ "\n" ++ resourceId ++
    "\n" ++ asciiLower date ++ "\n\n"
  let signature := base64Encode (hmacSha256 (base64Decode key) (utf8Bytes text))
  let authToken := "type=master&ver=1.0&sig=" ++ signature
  let newHeaders :=
    objSetStr (objSetStr (objSetStr requestOptions.headers
      "Authorization" (encodeURIComponent authToken)) "x-ms-date" date)
      "x-ms-version" "2018-12-31"
  { requestOptions with headers := newHeaders }

/-- The canonical string of the spec: `lowercase(verb) \n lowercase(type) \n
resourceId \n lowercase(date) \n \n`. -/
def canonicalSigningString (verb resourceType resourceId date : String) : String :=
  asciiLower verb ++ "\n" ++ asciiLower resourceType ++ "\n" ++ resourceId ++ "\n" ++
    asciiLower date ++ "\n\n"

/-- The header value claimed by the spec: URL-encoding of
`type=master&ver=1.0&sig=` followed by the base64 HMAC-SHA256 digest (keyed
by the base64-decoded key) of the canonical string. -/
def masterKeySignature (verb resourceType resourceId date key : String) : String :=
  encodeURIComponent ("type=master&ver=1.0&sig=" ++
    base64Encode (hmacSha256 (base64Decode key)
      (utf8Bytes (canonicalSigningString verb resourceType resourceId date))))

/-- The error component of an `Except`. -/
def exceptErr : Except ε α → Option ε
  | .error e => some e
  | .ok _ => none

/-- `resource.id` as used by the delete loop (defined when truthy). -/
def rowIdValue (resource : Obj) : JValue := (jLookup resource "id").getD JValue.null

/-- `resource[partitionKeyPath]` (defaulted; only used under presence). -/
def rowPkValue (pkPath : String) (resource : Obj) : JValue :=
  (jLookup resource pkPath).getD JValue.null

/-- The fate of one queried row in the delete loop: `ok id` when its deletion
succeeded, `error (id, message)` when it landed in the `errors` bucket. -/
def rowOutcome (svc : Service) (client : ClientHandle)
    (databaseName containerName pkPath : String) (resource : Obj) :
    Except (JValue × String) JValue :=
  if jsTruthyOpt (jLookup resource "id") = false then
    .error (JValue.str "unknown", "Document missing id field")
  else
    match jLookup resource pkPath with
    | none => .error ((jLookup resource "id").getD JValue.null, pkRowMissingMsg pkPath)
    | some pkValue =>
      match svc.deleteItem client databaseName containerName
          ((jLookup resource "id").getD JValue.null) pkValue with
      | .ok _ => .ok ((jLookup resource "id").getD JValue.null)
      | .error f => .error ((jLookup resource "id").getD JValue.null, errorText f.message)

/-- The remote deletion the loop attempts for one row (`none` when the row is
skipped for a falsy id or a missing partition-key value). -/
def rowTraceEntry (client : ClientHandle) (databaseName containerName pkPath : String)
    (resource : Obj) : Option (ClientHandle × RemoteCall) :=
  if jsTruthyOpt (jLookup resource "id") = false then none
  else match jLookup resource pkPath with
    | none => none
    | some pkValue => some (client, .deleteItem databaseName containerName
        ((jLookup resource "id").getD JValue.null) pkValue)

/-- Whether the remote deletion of this row fails. -/
def rowDeleteFails (svc : Service) (client : ClientHandle)
    (databaseName containerName pkPath : String) (resource : Obj) : Bool :=
  match svc.deleteItem client databaseName containerName (rowIdValue resource)
      (rowPkValue pkPath resource) with
  | .ok _ => false
  | .error _ => true

/-- The error text reported for a failed remote deletion of this row. -/
def rowDeleteFailMsg (svc : Service) (client : ClientHandle)
    (databaseName containerName pkPath : String) (resource : Obj) : String :=
  match svc.deleteItem client databaseName containerName (rowIdValue resource)
      (rowPkValue pkPath resource) with
  | .ok _ => ""
  | .error f => errorText f.message

/-- A queried row carrying a truthy id and a present partition-key value. -/
def goodRow (pkPath : String) (resource : Obj) : Bool :=
  jsTruthyOpt (jLookup resource "id") && (jLookup resource pkPath).isSome

/-! Concrete fixtures used by witnesses and counterexamples. -/

def wRowA : Obj := [("id", JValue.str "a"), ("pk", JValue.str "p1")]
def wRowB : Obj := [("id", JValue.str "b"), ("pk", JValue.str "p2")]
def wRowC : Obj := [("id", JValue.str "c"), ("pk", JValue.str "p3")]
def wRows : List Obj := [wRowA, wRowB, wRowC]

/-- A concrete service: the query returns three rows, the container's
partition key is `/pk`, and the remote deletion of row `b` fails. -/
def wService : Service where
  queryItems := fun _ _ _ _ => .ok wRows
  readContainer := fun _ _ _ => .ok (some ["/pk"])
  createItem := fun _ _ _ _ => .ok (some [("id", JValue.str "1")])
  upsertItem := fun _ _ _ _ => .ok none
  deleteItem := fun _ _ _ id _ =>
    match id with
    | .str s => if s = "b" then .error ⟨none, "delete failed"⟩ else .ok ()
    | _ => .ok ()
  createDatabaseIfNotExists := fun _ id _ => .ok (201, id)
  createContainerIfNotExists := fun _ _ containerDef _ => .ok (201, containerDef.id)
  deleteDatabase := fun _ _ => .ok ()
  deleteContainer := fun _ _ _ => .ok ()
  readAllDatabases := fun _ => .ok ["db2", "db1"]

/-- `wService` with an empty query result. -/
def wEmptyService : Service :=
  { wService with queryItems := fun _ _ _ _ => .ok [] }

/-- A concrete environment whose entraId credential carries an *empty* access
token that is far from expiry (no refresh probe fires). -/
def wEnv : ExecEnv :=
  ⟨⟨"https://acct", "a2V5"⟩, ⟨"https://acct", some "", some 2000000000000, none⟩, 0, wService⟩

def wAuthMaster : Nat → String := fun _ => "masterKey"
def wAuthEntra : Nat → String := fun _ => "entraId"
def wClient : ClientHandle := ClientHandle.masterKey "https://acct" "a2V5"
def wEntraClient : ClientHandle := ClientHandle.entraId "https://acct" (some "") 2000000000000

def wSelectOp : Operation := Operation.select "db" "c" "SELECT * FROM c" ⟨none, none⟩
def wSelectParams : Nat → Operation := fun _ => wSelectOp
def wInsertNoIdParams : Nat → Operation := fun _ => Operation.insert "db" "c" (Except.ok [])
def wRow : Obj := [("id", JValue.str "7"), ("text", JValue.str "t"),
  ("embedding", JValue.arr [JValue.num 1, JValue.num 2])]

/-! Lemmas about the record loop. -/

theorem runItems_continue_result (svc : Service) (client : ClientHandle)
    (params : Nat → Operation) :
    ∀ count start, (runItems svc client true params start count).2 =
      .ok ((List.range' start count).flatMap (itemBlock svc client true params)) := by
  intro count
  induction count with
  | zero => intro start; simp [runItems, List.range']
  | succ k ih =>
    intro start
    rw [List.range'_succ start k 1]
    simp only [List.flatMap_cons]
    cases h : (processItem svc client (params start)).2 with
    | ok objs => simp [runItems, h, ih, consOutput, itemBlock]
    | error msg => simp [runItems, h, ih, consOutput, itemBlock]

theorem runItems_stop_result (svc : Service) (client : ClientHandle)
    (params : Nat → Operation) :
    ∀ count start,
      ((∀ j, start ≤ j → j < start + count → itemOk svc client params j = true) ∧
        (runItems svc client false params start count).2 =
          .ok ((List.range' start count).flatMap (itemBlock svc client false params))) ∨
      (∃ k msg, start ≤ k ∧ k < start + count ∧
        (∀ j, start ≤ j → j < k → itemOk svc client params j = true) ∧
        (processItem svc client (params k)).2 = .error msg ∧
        (runItems svc client false params start count).2 =
          .failed ((List.range' start (k - start)).flatMap (itemBlock svc client false params))
            k msg) := by
  intro count
  induction count with
  | zero =>
    intro start
    left
    refine ⟨fun j h1 h2 => absurd h2 (by omega), ?_⟩
    simp [runItems, List.range']
  | succ k ih =>
    intro start
    cases h : (processItem svc client (params start)).2 with
    | ok objs =>
      rcases ih (start + 1) with ⟨hall, hres⟩ | ⟨k2, msg, h1, h2, h3, h4, h5⟩
      · left
        constructor
        · intro j hj1 hj2
          rcases Nat.eq_or_lt_of_le hj1 with he | hl
          · simp [itemOk, ← he, h]
          · exact hall j hl (by omega)
        · rw [List.range'_succ start k 1]
          simp [runItems, h, hres, consOutput, itemBlock, List.flatMap_cons]
      · right
        refine ⟨k2, msg, by omega, by omega, ?_, h4, ?_⟩
        · intro j hj1 hj2
          rcases Nat.eq_or_lt_of_le hj1 with he | hl
          · simp [itemOk, ← he, h]
          · exact h3 j hl hj2
        · obtain ⟨d, rfl⟩ : ∃ d, k2 = start + 1 + d := ⟨k2 - (start + 1), by omega⟩
          have hr : start + 1 + d - start = d + 1 := by omega
          have hr2 : start + 1 + d - (start + 1) = d := by omega
          rw [hr]
          rw [hr2] at h5
          rw [List.range'_succ start d 1]
          simp [runItems, h, h5, consOutput, itemBlock, List.flatMap_cons]
    | error msg =>
      right
      refine ⟨start, msg, Nat.le_refl _, by omega, ?_, h, ?_⟩
      · intro j hj1 hj2; omega
      · simp [runItems, h, List.range']

theorem runItems_result_cases (svc : Service) (client : ClientHandle)
    (continueOnFail : Bool) (params : Nat → Operation) (n : Nat) :
    (runItems svc client continueOnFail params 0 n).2 =
      .ok ((List.range n).flatMap (itemBlock svc client continueOnFail params)) ∨
    ∃ k msg, k < n ∧ (runItems svc client continueOnFail params 0 n).2 =
      .failed ((List.range k).flatMap (itemBlock svc client continueOnFail params)) k msg := by
  cases continueOnFail with
  | true =>
    left
    rw [List.range_eq_range']
    exact runItems_continue_result svc client params n 0
  | false =>
    rcases runItems_stop_result svc client params n 0 with ⟨_, hres⟩ | ⟨k, msg, _, h2, _, _, h5⟩
    · left; rw [List.range_eq_range']; exact hres
    · right
      refine ⟨k, msg, by omega, ?_⟩
      rw [List.range_eq_range']
      simpa using h5

theorem itemBlock_pairedItem (svc : Service) (client : ClientHandle)
    (continueOnFail : Bool) (params : Nat → Operation) (itemIndex : Nat) :
    ∀ r ∈ itemBlock svc client continueOnFail params itemIndex, r.pairedItem = itemIndex := by
  intro r hr
  unfold itemBlock at hr
  cases h : (processItem svc client (params itemIndex)).2 with
  | ok objs =>
    rw [h] at hr
    obtain ⟨o, _, rfl⟩ := List.mem_map.mp hr
    rfl
  | error msg =>
    rw [h] at hr
    cases continueOnFail with
    | true => simp at hr; subst hr; rfl
    | false => simp at hr

/-! Lemmas about the per-row deletion loop. -/

theorem deleteLoop_spec (svc : Service) (client : ClientHandle)
    (databaseName containerName pkPath : String) (rs : List Obj) :
    deleteLoop svc client databaseName containerName pkPath rs =
      ⟨rs.filterMap (rowTraceEntry client databaseName containerName pkPath),
       (rs.filterMap (fun r =>
         (rowOutcome svc client databaseName containerName pkPath r).toOption)).length,
       rs.filterMap (fun r =>
         (rowOutcome svc client databaseName containerName pkPath r).toOption),
       rs.filterMap (fun r =>
         exceptErr (rowOutcome svc client databaseName containerName pkPath r))⟩ := by
  induction rs with
  | nil => rfl
  | cons r rest ih =>
    simp only [deleteLoop, ih, List.filterMap_cons]
    by_cases hid : jsTruthyOpt (jLookup r "id") = false
    · simp [rowOutcome, rowTraceEntry, hid, exceptErr, Except.toOption]
    · rw [if_neg hid]
      cases hpk : jLookup r pkPath with
      | none => simp [rowOutcome, rowTraceEntry, hid, hpk, exceptErr, Except.toOption]
      | some pkValue =>
        cases hdel : svc.deleteItem client databaseName containerName
            ((jLookup r "id").getD JValue.null) pkValue with
        | ok u =>
          simp [rowOutcome, rowTraceEntry, hid, hpk, hdel, exceptErr, Except.toOption]
        | error f =>
          simp [rowOutcome, rowTraceEntry, hid, hpk, hdel, exceptErr, Except.toOption]

theorem filterMap_outcome_length (f : α → Except ε β) (l : List α) :
    (l.filterMap (fun a => (f a).toOption)).length +
      (l.filterMap (fun a => exceptErr (f a))).length = l.length := by
  induction l with
  | nil => rfl
  | cons a t ih =>
    rw [List.filterMap_cons, List.filterMap_cons]
    cases h : f a with
    | ok b =>
      simp only [Except.toOption, exceptErr, List.length_cons] at ih ⊢
      omega
    | error e =>
      simp only [Except.toOption, exceptErr, List.length_cons] at ih ⊢
      omega

theorem filterMap_toOption_eq_map {f : α → Except ε β} {g : α → Bool}
    {idv : α → β} {em : α → ε} (l : List α)
    (h : ∀ a ∈ l, f a = if g a then .error (em a) else .ok (idv a)) :
    l.filterMap (fun a => (f a).toOption) = (l.filter (fun a => !g a)).map idv := by
  induction l with
  | nil => rfl
  | cons a t ih =>
    have ha := h a (List.mem_cons_self a t)
    have ht := fun x hx => h x (List.mem_cons_of_mem a hx)
    rw [List.filterMap_cons, List.filter_cons, ha]
    cases hg : g a with
    | true =>
      have hih := ih ht
      simp only [Except.toOption] at hih
      simp [Except.toOption, hih]
    | false =>
      have hih := ih ht
      simp only [Except.toOption] at hih
      simp [Except.toOption, hih]

theorem filterMap_exceptErr_eq_map {f : α → Except ε β} {g : α → Bool}
    {idv : α → β} {em : α → ε} (l : List α)
    (h : ∀ a ∈ l, f a = if g a then .error (em a) else .ok (idv a)) :
    l.filterMap (fun a => exceptErr (f a)) = (l.filter g).map em := by
  induction l with
  | nil => rfl
  | cons a t ih =>
    have ha := h a (List.mem_cons_self a t)
    have ht := fun x hx => h x (List.mem_cons_of_mem a hx)
    rw [List.filterMap_cons, List.filter_cons, ha]
    cases hg : g a with
    | true =>
      have hih := ih ht
      simp only [exceptErr] at hih
      simp [exceptErr, hih]
    | false =>
      have hih := ih ht
      simp only [exceptErr] at hih
      simp [exceptErr, hih]

theorem filterMap_eq_map_of_some {tr : α → Option β} {g : α → β} (l : List α)
    (h : ∀ a ∈ l, tr a = some (g a)) : l.filterMap tr = l.map g := by
  induction l with
  | nil => rfl
  | cons a t ih =>
    rw [List.filterMap_cons, h a (List.mem_cons_self a t),
      ih (fun x hx => h x (List.mem_cons_of_mem a hx)), List.map_cons]

theorem goodRow_outcome (svc : Service) (client : ClientHandle)
    (databaseName containerName pkPath : String) (r : Obj)
    (h : goodRow pkPath r = true) :
    rowOutcome svc client databaseName containerName pkPath r =
      (if rowDeleteFails svc client databaseName containerName pkPath r then
        .error (rowIdValue r, rowDeleteFailMsg svc client databaseName containerName pkPath r)
      else .ok (rowIdValue r)) := by
  obtain ⟨hid, hpk⟩ : jsTruthyOpt (jLookup r "id") = true ∧ (jLookup r pkPath).isSome = true :=
    by simpa [goodRow] using h
  obtain ⟨pkValue, hpkv⟩ := Option.isSome_iff_exists.mp hpk
  unfold rowOutcome rowDeleteFails rowDeleteFailMsg rowIdValue rowPkValue
  rw [if_neg (by simp [hid]), hpkv]
  simp only [hpkv, Option.getD_some]
  cases hdel : svc.deleteItem client databaseName containerName
      ((jLookup r "id").getD JValue.null) pkValue <;> simp [hdel]

theorem goodRow_traceEntry (client : ClientHandle)
    (databaseName containerName pkPath : String) (r : Obj)
    (h : goodRow pkPath r = true) :
    rowTraceEntry client databaseName containerName pkPath r =
      some (client, .deleteItem databaseName containerName (rowIdValue r)
        (rowPkValue pkPath r)) := by
  obtain ⟨hid, hpk⟩ : jsTruthyOpt (jLookup r "id") = true ∧ (jLookup r pkPath).isSome = true :=
    by simpa [goodRow] using h
  obtain ⟨pkValue, hpkv⟩ := Option.isSome_iff_exists.mp hpk
  unfold rowTraceEntry rowIdValue rowPkValue
  rw [if_neg (by simp [hid]), hpkv]
  simp [hpkv]

theorem handleDeleteByQuery_ok (svc : Service) (client : ClientHandle)
    (databaseName containerName deleteQuery : String) (rs : List Obj)
    (paths : Option (List String))
    (hq : svc.queryItems client databaseName containerName deleteQuery = .ok rs)
    (hne : rs ≠ [])
    (hrc : svc.readContainer client databaseName containerName = .ok paths)
    (hfirst : (jLookup (rs.headD []) (partitionKeyPathOf paths)).isSome = true) :
    handleDeleteByQuery svc client databaseName containerName deleteQuery =
      ([(client, .queryItems databaseName containerName deleteQuery),
        (client, .readContainer databaseName containerName)] ++
        rs.filterMap (rowTraceEntry client databaseName containerName
          (partitionKeyPathOf paths)),
       .ok [deleteByQuerySummary
         (rs.filterMap (fun r => (rowOutcome svc client databaseName containerName
           (partitionKeyPathOf paths) r).toOption)).length
         rs.length
         (rs.filterMap (fun r => (rowOutcome svc client databaseName containerName
           (partitionKeyPathOf paths) r).toOption))
         (rs.filterMap (fun r => exceptErr (rowOutcome svc client databaseName containerName
           (partitionKeyPathOf paths) r)))]) := by
  cases rs with
  | nil => exact absurd rfl hne
  | cons first rest =>
    obtain ⟨pkValue, hpkv⟩ := Option.isSome_iff_exists.mp hfirst
    simp only [List.headD_cons] at hpkv
    simp only [handleDeleteByQuery, hq, hrc, hpkv, Option.isNone_some, Bool.false_eq_true,
      if_false, deleteLoop_spec]

theorem rowTraceEntry_client (client : ClientHandle)
    (databaseName containerName pkPath : String) (r : Obj)
    (e : ClientHandle × RemoteCall)
    (h : rowTraceEntry client databaseName containerName pkPath r = some e) :
    e.1 = client := by
  unfold rowTraceEntry at h
  by_cases hid : jsTruthyOpt (jLookup r "id") = false
  · rw [if_pos hid] at h; cases h
  · rw [if_neg hid] at h
    cases hpk : jLookup r pkPath with
    | none => rw [hpk] at h; cases h
    | some pkValue =>
      rw [hpk] at h
      injection h with h
      subst h
      rfl

theorem deleteLoop_trace_client (svc : Service) (client : ClientHandle)
    (databaseName containerName pkPath : String) (rs : List Obj) :
    ∀ e ∈ (deleteLoop svc client databaseName containerName pkPath rs).trace, e.1 = client := by
  intro e he
  rw [deleteLoop_spec] at he
  obtain ⟨r, _, hr⟩ := List.mem_filterMap.mp he
  exact rowTraceEntry_client client databaseName containerName pkPath r e hr

theorem processItem_trace_client (svc : Service) (client : ClientHandle) (op : Operation) :
    ∀ e ∈ (processItem svc client op).1, e.1 = client := by
  intro e he
  cases op with
  | select databaseName containerName sqlQuery options =>
    simp only [processItem, handleSelect] at he
    split at he <;> simp_all
  | insert databaseName containerName document =>
    rcases document with m | d
    · simp [processItem, handleInsert] at he
    · simp only [processItem, handleInsert] at he
      (repeat' split at he) <;> simp_all <;> rcases he with rfl | rfl <;> rfl
  | upsert databaseName containerName document =>
    rcases document with m | d
    · simp [processItem, handleUpsert] at he
    · simp only [processItem, handleUpsert] at he
      (repeat' split at he) <;> simp_all <;> rcases he with rfl | rfl <;> rfl
  | deleteDoc databaseName containerName deleteMode documentId partitionKeyValue deleteQuery =>
    simp only [processItem] at he
    by_cases hm : deleteMode = "byId"
    · rw [if_pos hm] at he
      simp only [handleDeleteById] at he
      (repeat' split at he) <;> simp_all
    · rw [if_neg hm] at he
      simp only [handleDeleteByQuery] at he
      split at he
      · simp_all
      · split at he
        · simp_all
        · split at he
          · simp_all
            rcases he with rfl | rfl <;> rfl
          · split at he
            · simp_all
              rcases he with rfl | rfl <;> rfl
            · rw [List.mem_append] at he
              rcases he with he | he
              · simp_all
                rcases he with rfl | rfl <;> rfl
              · exact deleteLoop_trace_client svc client databaseName containerName _ _ e he
  | createDatabase newDatabaseName databaseThroughput =>
    simp only [processItem, handleCreateDatabase] at he
    (repeat' split at he) <;> simp_all
  | createContainer databaseName newContainerName partitionKeyPath containerThroughput
      enableVectorIndex enableFullTextIndex vectorIndexConfig fullTextIndexPaths =>
    simp only [processItem, handleCreateContainer] at he
    (repeat' split at he) <;> simp_all
  | deleteDatabase databaseToDelete =>
    simp only [processItem, handleDeleteDatabase] at he
    (repeat' split at he) <;> simp_all
  | deleteContainer databaseName containerToDelete =>
    simp only [processItem, handleDeleteContainer] at he
    (repeat' split at he) <;> simp_all
  | unknownOp name => simp [processItem] at he

theorem runItems_trace_client (svc : Service) (client : ClientHandle)
    (continueOnFail : Bool) (params : Nat → Operation) :
    ∀ count start, ∀ e ∈ (runItems svc client continueOnFail params start count).1,
      e.1 = client := by
  intro count
  induction count with
  | zero => intro start e he; simp [runItems] at he
  | succ k ih =>
    intro start e he
    cases h : (processItem svc client (params start)).2 with
    | ok objs =>
      simp only [runItems, h] at he
      rw [List.mem_append] at he
      rcases he with he | he
      · exact processItem_trace_client svc client (params start) e he
      · exact ih (start + 1) e he
    | error msg =>
      cases continueOnFail with
      | true =>
        simp [runItems, h] at he
        rcases he with he | he
        · exact processItem_trace_client svc client (params start) e he
        · exact ih (start + 1) e he
      | false =>
        simp [runItems, h] at he
        exact processItem_trace_client svc client (params start) e he

theorem lookup_map_replace (o : List (String × String)) (k v : String)
    (hany : o.any (fun kv => kv.1 == k) = true) :
    (o.map (fun kv => if kv.1 == k then (k, v) else kv)).lookup k = some v := by
  induction o with
  | nil => simp at hany
  | cons a t ih =>
    obtain ⟨k1, v1⟩ := a
    rw [List.map_cons]
    by_cases h1 : (k1 == k) = true
    · rw [if_pos h1]
      simp [List.lookup]
    · rw [if_neg h1]
      have hk : (k == k1) = false := by
        have : k1 ≠ k := by simpa using h1
        simp [Ne.symm this]
      have ht : t.any (fun kv => kv.1 == k) = true := by
        rcases List.any_eq_true.mp hany with ⟨x, hx, hxk⟩
        rcases List.mem_cons.mp hx with rfl | hx
        · exact absurd hxk h1
        · exact List.any_eq_true.mpr ⟨x, hx, hxk⟩
      simp only [List.lookup, hk]
      exact ih ht

theorem lookup_append_single (o : List (String × String)) (k v : String) :
    (o ++ [(k, v)]).lookup k = (o.lookup k).getD v := by
  induction o with
  | nil => simp [List.lookup]
  | cons a t ih =>
    obtain ⟨k1, v1⟩ := a
    by_cases h1 : (k == k1) = true
    · simp [List.lookup, h1]
    · have h1f : (k == k1) = false := by simpa using h1
      simp only [List.cons_append, List.lookup, h1f]
      exact ih

theorem objSetStr_lookup_self (o : List (String × String)) (k v : String) :
    (objSetStr o k v).lookup k = some v := by
  unfold objSetStr
  by_cases hany : o.any (fun kv => kv.1 == k) = true
  · rw [if_pos hany]
    exact lookup_map_replace o k v hany
  · rw [if_neg hany]
    rw [lookup_append_single]
    have hnone : o.lookup k = none := by
      induction o with
      | nil => rfl
      | cons a t ih =>
        obtain ⟨k1, v1⟩ := a
        have ha : (k1 == k) = false := by
          by_contra hc
          exact hany (List.any_eq_true.mpr ⟨(k1, v1), List.mem_cons_self _ t, by simpa using hc⟩)
        have hk : (k == k1) = false := by
          have : k1 ≠ k := by simpa using ha
          simp [Ne.symm this]
        simp only [List.lookup, hk]
        exact ih (fun hc => hany (by
          rcases List.any_eq_true.mp hc with ⟨x, hx, hxk⟩
          exact List.any_eq_true.mpr ⟨x, List.mem_cons_of_mem _ hx, hxk⟩))
    rw [hnone]
    rfl

theorem objSetStr_lookup_other (o : List (String × String)) (k v k' : String)
    (h : k' ≠ k) : (objSetStr o k v).lookup k' = o.lookup k' := by
  unfold objSetStr
  by_cases hany : o.any (fun kv => kv.1 == k) = true
  · rw [if_pos hany]
    clear hany
    induction o with
    | nil => rfl
    | cons a t ih =>
      obtain ⟨k1, v1⟩ := a
      rw [List.map_cons]
      by_cases h1 : (k1 == k) = true
      · rw [if_pos h1]
        have hak : k1 = k := by simpa using h1
        have hk1 : (k' == k) = false := by simp [h]
        have hk2 : (k' == k1) = false := by simp [hak, h]
        simp only [List.lookup, hk1, hk2]
        exact ih
      · rw [if_neg h1]
        cases hk : k' == k1 with
        | true => simp [List.lookup, hk]
        | false =>
          simp only [List.lookup, hk]
          exact ih
  · rw [if_neg hany]
    induction o with
    | nil =>
      have : (k' == k) = false := by simp [h]
      simp [List.lookup, this]
    | cons a t ih =>
      obtain ⟨k1, v1⟩ := a
      cases hk : k' == k1 with
      | true => simp [List.lookup, hk]
      | false =>
        simp only [List.cons_append, List.lookup, hk]
        exact ih (fun hc => hany (by
          rcases List.any_eq_true.mp hc with ⟨x, hx, hxk⟩
          exact List.any_eq_true.mpr ⟨x, List.mem_cons_of_mem _ hx, hxk⟩))

theorem foldl_deleteKey_filter (fs : List String) (o : Obj) :
    fs.foldl deleteKey o = o.filter (fun kv => !(fs.contains kv.1)) := by
  induction fs generalizing o with
  | nil => simp
  | cons f t ih =>
    rw [List.foldl_cons, ih, deleteKey, List.filter_filter]
    apply List.filter_congr
    intro kv _
    by_cases h1 : kv.1 = f <;> by_cases h2 : kv.1 ∈ t <;>
      simp [List.contains_cons, List.elem_iff, bne, beq_iff_eq, h1, h2]

theorem jLookup_filter_none (o : Obj) (p : String × JValue → Bool) (k : String)
    (h : ∀ v, p (k, v) = false) : jLookup (o.filter p) k = none := by
  induction o with
  | nil => rfl
  | cons a t ih =>
    obtain ⟨k1, v1⟩ := a
    rw [List.filter_cons]
    by_cases hk : k1 = k
    · subst hk
      rw [if_neg (by simp [h v1])]
      exact ih
    · cases hp : p (k1, v1) with
      | true =>
        have hkk : (k == k1) = false := by simp [Ne.symm hk]
        simp only [if_pos (by simp [hp] : p (k1, v1) = true), jLookup, List.lookup, hkk]
        exact ih
      | false =>
        rw [if_neg (by simp [hp])]
        exact ih

theorem jLookup_filter_other (o : Obj) (p : String × JValue → Bool) (k : String)
    (h : ∀ v, p (k, v) = true) : jLookup (o.filter p) k = jLookup o k := by
  induction o with
  | nil => rfl
  | cons a t ih =>
    obtain ⟨k1, v1⟩ := a
    rw [List.filter_cons]
    by_cases hk : k1 = k
    · subst hk
      rw [if_pos (by simp [h v1])]
      simp [jLookup, List.lookup]
    · have hkk : (k == k1) = false := by simp [Ne.symm hk]
      cases hp : p (k1, v1) with
      | true =>
        simp only [if_pos (by simp [hp] : p (k1, v1) = true), jLookup, List.lookup, hkk]
        exact ih
      | false =>
        rw [if_neg (by simp [hp])]
        simp only [jLookup, List.lookup, hkk] at ih ⊢
        exact ih

/-- C1: for every execution and every input record index `i`, every output
record appended while processing input record `i` carries `pairedItem = i`.
The loop's output stream is the concatenation of per-record blocks in index
order (in stop mode, the blocks of the records processed before the failing
index), and every record of block `i` — query rows, insert/upsert resources,
delete summaries, create/delete confirmations and continue-mode error records
alike — is tagged with `i`.  The legacy `Cosmos.node.ts` loop
(`cosmosExecute`) decomposes identically. -/
theorem c1_output_pairing (env : ExecEnv) (authTypeParam : Nat → String)
    (params : Nat → Operation) (n : Nat) (continueOnFail : Bool)
    (endpoint key : String) :
    ((execute env authTypeParam params n continueOnFail).result =
        .ok ((List.range n).flatMap
          (itemBlock env.svc (resolveClient env (authTypeParam 0)).2 continueOnFail params)) ∨
      ∃ k msg, k < n ∧ (execute env authTypeParam params n continueOnFail).result =
        .failed ((List.range k).flatMap
          (itemBlock env.svc (resolveClient env (authTypeParam 0)).2 continueOnFail params))
          k msg) ∧
    (∀ itemIndex r, r ∈ itemBlock env.svc (resolveClient env (authTypeParam 0)).2
        continueOnFail params itemIndex → r.pairedItem = itemIndex) ∧
    ((cosmosExecute env.svc endpoint key params n continueOnFail).2 =
        .ok ((List.range n).flatMap
          (itemBlock env.svc (ClientHandle.masterKey endpoint key) continueOnFail params)) ∨
      ∃ k msg, k < n ∧ (cosmosExecute env.svc endpoint key params n continueOnFail).2 =
        .failed ((List.range k).flatMap
          (itemBlock env.svc (ClientHandle.masterKey endpoint key) continueOnFail params))
          k msg) := by
  refine ⟨?_, ?_, ?_⟩
  · exact runItems_result_cases env.svc (resolveClient env (authTypeParam 0)).2
      continueOnFail params n
  · exact fun itemIndex => itemBlock_pairedItem env.svc
      (resolveClient env (authTypeParam 0)).2 continueOnFail params itemIndex
  · exact runItems_result_cases env.svc (ClientHandle.masterKey endpoint key)
      continueOnFail params n

theorem c1_output_pairing_witness :
    (⟨wRowA, 0⟩ : OutputRecord) ∈
        itemBlock wEnv.svc (resolveClient wEnv (wAuthMaster 0)).2 true wSelectParams 0 ∧
    (⟨wRowA, 0⟩ : OutputRecord).pairedItem = 0 :=
  ⟨List.Mem.head _,
    (c1_output_pairing wEnv wAuthMaster wSelectParams 1 true "e" "k").2.1 0 ⟨wRowA, 0⟩
      (List.Mem.head _)⟩

/-- C2: if processing record `i` throws with message `msg` (and, for stop
mode, every earlier record succeeded), then with continue-on-fail set the
execution returns the full per-record decomposition in which block `i` is
exactly one `{error: msg}` record tagged `i` (so the records of all
non-failing inputs appear in original order), while with the flag unset the
loop rethrows carrying record index `i` and the records produced are exactly
those of the inputs before `i`. -/
theorem c2_continue_on_fail (env : ExecEnv) (authTypeParam : Nat → String)
    (params : Nat → Operation) (n itemIndex : Nat) (msg : String)
    (hlt : itemIndex < n)
    (hfail : (processItem env.svc (resolveClient env (authTypeParam 0)).2
      (params itemIndex)).2 = .error msg) :
    ((execute env authTypeParam params n true).result =
        .ok ((List.range n).flatMap
          (itemBlock env.svc (resolveClient env (authTypeParam 0)).2 true params)) ∧
      itemBlock env.svc (resolveClient env (authTypeParam 0)).2 true params itemIndex =
        [⟨[("error", JValue.str msg)], itemIndex⟩]) ∧
    ((∀ j, j < itemIndex →
        itemOk env.svc (resolveClient env (authTypeParam 0)).2 params j = true) →
      (execute env authTypeParam params n false).result =
        .failed ((List.range itemIndex).flatMap
          (itemBlock env.svc (resolveClient env (authTypeParam 0)).2 false params))
          itemIndex msg ∧
      ∀ r ∈ (List.range itemIndex).flatMap
          (itemBlock env.svc (resolveClient env (authTypeParam 0)).2 false params),
        r.pairedItem < itemIndex) := by
  constructor
  · constructor
    · rw [List.range_eq_range']
      exact runItems_continue_result env.svc (resolveClient env (authTypeParam 0)).2 params n 0
    · unfold itemBlock
      rw [hfail]
      rfl
  · intro hok
    rcases runItems_stop_result env.svc (resolveClient env (authTypeParam 0)).2 params n 0 with
      ⟨hall, _⟩ | ⟨k, m, _, hk2, hmin, hkfail, hres⟩
    · exact absurd (hall itemIndex (Nat.zero_le _) (by omega)) (by simp [itemOk, hfail])
    · have hki : k = itemIndex := by
        rcases Nat.lt_trichotomy k itemIndex with hlt2 | heq | hgt
        · exact absurd (hok k hlt2) (by simp [itemOk, hkfail])
        · exact heq
        · exact absurd (hmin itemIndex (Nat.zero_le _) hgt) (by simp [itemOk, hfail])
      subst hki
      have hmsg : m = msg := by
        have h2 := hkfail.symm.trans hfail
        injection h2
      subst hmsg
      constructor
      · rw [List.range_eq_range']
        simpa using hres
      · intro r hr
        rw [List.mem_flatMap] at hr
        obtain ⟨i, hi, hri⟩ := hr
        rw [List.mem_range] at hi
        rw [itemBlock_pairedItem env.svc (resolveClient env (authTypeParam 0)).2 false params
          i r hri]
        exact hi

theorem c2_continue_on_fail_witness :
    (processItem wEnv.svc (resolveClient wEnv (wAuthMaster 0)).2 (wInsertNoIdParams 0)).2 =
        Except.error "Document must include an ID field" ∧
    (execute wEnv wAuthMaster wInsertNoIdParams 1 false).result =
      ExecResult.failed [] 0 "Document must include an ID field" := by
  refine ⟨rfl, ?_⟩
  have h := (c2_continue_on_fail wEnv wAuthMaster wInsertNoIdParams 1 0
    "Document must include an ID field" (by decide) rfl).2 (fun j hj => absurd hj (by omega))
  simpa using h.1

theorem length_filter_not_add (p : α → Bool) (l : List α) :
    (l.filter (fun a => !p a)).length + (l.filter p).length = l.length := by
  induction l with
  | nil => rfl
  | cons a t ih => cases h : p a <;> simp [List.filter_cons, h] <;> omega

theorem deleteByQuerySummary_success (dc tq : Nat) (ids : List JValue)
    (errs : List (JValue × String)) :
    jLookup (deleteByQuerySummary dc tq ids errs) "success" =
      some (JValue.bool errs.isEmpty) := by
  unfold deleteByQuerySummary jLookup
  rfl

/-- C3: delete-by-query emits exactly one aggregate record and no exception
escapes the per-row loop.  Zero matches: the handler performs only the query
call and pushes exactly `zeroMatchSummary` (whose fields read
`{success: true, deletedCount: 0, totalQueried: 0, deletedIds: []}`), never
throwing.  With `n > 0` matched rows all carrying ids and partition keys, and
`k` of them failing remote deletion: every deletion is still attempted (the
trace ends with one `deleteItem` call per row), and the single record is the
summary with `deletedCount = n - k`, `totalQueried = n`, a `k`-entry errors
list naming each failed row's id, and `success` true exactly when `k = 0`. -/
theorem c3_delete_by_query_aggregate (svc : Service) (client : ClientHandle)
    (databaseName containerName deleteQuery : String) :
    (svc.queryItems client databaseName containerName deleteQuery = .ok [] →
      handleDeleteByQuery svc client databaseName containerName deleteQuery =
        ([(client, .queryItems databaseName containerName deleteQuery)],
          .ok [zeroMatchSummary])) ∧
    (∀ rs paths pkPath (failedRows : List Obj),
      svc.queryItems client databaseName containerName deleteQuery = .ok rs →
      rs ≠ [] →
      svc.readContainer client databaseName containerName = .ok paths →
      pkPath = partitionKeyPathOf paths →
      (∀ r ∈ rs, goodRow pkPath r = true) →
      failedRows = rs.filter (rowDeleteFails svc client databaseName containerName pkPath) →
      (handleDeleteByQuery svc client databaseName containerName deleteQuery).1 =
        [(client, .queryItems databaseName containerName deleteQuery),
         (client, .readContainer databaseName containerName)] ++
        rs.map (fun r => (client, RemoteCall.deleteItem databaseName containerName
          (rowIdValue r) (rowPkValue pkPath r))) ∧
      (handleDeleteByQuery svc client databaseName containerName deleteQuery).2 =
        .ok [deleteByQuerySummary (rs.length - failedRows.length) rs.length
          ((rs.filter (fun r =>
            !(rowDeleteFails svc client databaseName containerName pkPath r))).map rowIdValue)
          (failedRows.map (fun r => (rowIdValue r,
            rowDeleteFailMsg svc client databaseName containerName pkPath r)))] ∧
      jLookup (deleteByQuerySummary (rs.length - failedRows.length) rs.length
          ((rs.filter (fun r =>
            !(rowDeleteFails svc client databaseName containerName pkPath r))).map rowIdValue)
          (failedRows.map (fun r => (rowIdValue r,
            rowDeleteFailMsg svc client databaseName containerName pkPath r)))) "success" =
        some (JValue.bool failedRows.isEmpty) ∧
      (failedRows.map (fun r => (rowIdValue r,
        rowDeleteFailMsg svc client databaseName containerName pkPath r))).length =
        failedRows.length) := by
  constructor
  · intro hq
    simp [handleDeleteByQuery, hq]
  · intro rs paths pkPath failedRows hq hne hrc hpk hgood hfailed
    subst hpk
    subst hfailed
    have hfirst : (jLookup (rs.headD []) (partitionKeyPathOf paths)).isSome = true := by
      cases rs with
      | nil => exact absurd rfl hne
      | cons first rest =>
        obtain ⟨_, h2⟩ : jsTruthyOpt (jLookup first "id") = true ∧
            (jLookup first (partitionKeyPathOf paths)).isSome = true := by
          simpa [goodRow] using hgood first (List.mem_cons_self _ _)
        simpa using h2
    have hmain := handleDeleteByQuery_ok svc client databaseName containerName deleteQuery
      rs paths hq hne hrc hfirst
    have hgoodRow : ∀ r ∈ rs,
        rowOutcome svc client databaseName containerName (partitionKeyPathOf paths) r =
          if rowDeleteFails svc client databaseName containerName (partitionKeyPathOf paths) r
          then .error (rowIdValue r, rowDeleteFailMsg svc client databaseName containerName
            (partitionKeyPathOf paths) r)
          else .ok (rowIdValue r) :=
      fun r hr => goodRow_outcome svc client databaseName containerName
        (partitionKeyPathOf paths) r (hgood r hr)
    have hids := filterMap_toOption_eq_map rs hgoodRow
    have herrs := filterMap_exceptErr_eq_map rs hgoodRow
    have htr := filterMap_eq_map_of_some rs (fun r hr =>
      goodRow_traceEntry client databaseName containerName (partitionKeyPathOf paths) r
        (hgood r hr))
    have harith : ((rs.filter (fun r =>
        !(rowDeleteFails svc client databaseName containerName
          (partitionKeyPathOf paths) r))).map rowIdValue).length =
        rs.length - (rs.filter (rowDeleteFails svc client databaseName containerName
          (partitionKeyPathOf paths))).length := by
      rw [List.length_map]
      have := length_filter_not_add
        (rowDeleteFails svc client databaseName containerName (partitionKeyPathOf paths)) rs
      omega
    refine ⟨?_, ?_, ?_, ?_⟩
    · rw [show (handleDeleteByQuery svc client databaseName containerName deleteQuery).1 =
        _ from congrArg Prod.fst hmain]
      rw [htr]
    · rw [show (handleDeleteByQuery svc client databaseName containerName deleteQuery).2 =
        _ from congrArg Prod.snd hmain]
      rw [hids, herrs, harith]
    · rw [deleteByQuerySummary_success]
      cases hfr : rs.filter (rowDeleteFails svc client databaseName containerName
        (partitionKeyPathOf paths)) <;> simp
    · rw [List.length_map]

theorem c3_delete_by_query_aggregate_witness :
    wService.queryItems wClient "db" "c" "SELECT * FROM c" = .ok wRows ∧
    (handleDeleteByQuery wService wClient "db" "c" "SELECT * FROM c").2 =
      .ok [deleteByQuerySummary (wRows.length - 1) wRows.length
        [JValue.str "a", JValue.str "c"]
        [(JValue.str "b", "delete failed")]] := by
  refine ⟨rfl, ?_⟩
  have h := ((c3_delete_by_query_aggregate wService wClient "db" "c" "SELECT * FROM c").2
    wRows (some ["/pk"]) "pk" [wRowB] rfl (by simp [wRows]) rfl rfl
    (by decide) rfl).2.1
  simpa [wRows, wRowA, wRowB, wRowC] using h

/-- C10: for a delete-by-query matching at least one row and passing the
first-row partition-key check, every matched row lands in exactly one of the
two buckets — the single summary is built from the row-outcome partition of
the full row list, `deletedCount` is literally the length of `deletedIds`,
and `deletedCount + errors.length = totalQueried`.  A row with a falsy or
absent id contributes the `('unknown', 'Document missing id field')` error
entry; a row with an id but no partition-key value contributes an error entry
naming the missing field; neither stops the remaining rows from being
processed (the summary ranges over all of `rs`). -/
theorem c10_delete_buckets (svc : Service) (client : ClientHandle)
    (databaseName containerName deleteQuery pkPath : String) (rs : List Obj)
    (paths : Option (List String))
    (hq : svc.queryItems client databaseName containerName deleteQuery = .ok rs)
    (hne : rs ≠ [])
    (hrc : svc.readContainer client databaseName containerName = .ok paths)
    (hpk : pkPath = partitionKeyPathOf paths)
    (hfirst : (jLookup (rs.headD []) pkPath).isSome = true) :
    (handleDeleteByQuery svc client databaseName containerName deleteQuery).2 =
      .ok [deleteByQuerySummary
        (rs.filterMap (fun r =>
          (rowOutcome svc client databaseName containerName pkPath r).toOption)).length
        rs.length
        (rs.filterMap (fun r =>
          (rowOutcome svc client databaseName containerName pkPath r).toOption))
        (rs.filterMap (fun r =>
          exceptErr (rowOutcome svc client databaseName containerName pkPath r)))] ∧
    (rs.filterMap (fun r =>
        (rowOutcome svc client databaseName containerName pkPath r).toOption)).length +
      (rs.filterMap (fun r =>
        exceptErr (rowOutcome svc client databaseName containerName pkPath r))).length =
      rs.length ∧
    (∀ r ∈ rs, jsTruthyOpt (jLookup r "id") = false →
      rowOutcome svc client databaseName containerName pkPath r =
        .error (JValue.str "unknown", "Document missing id field")) ∧
    (∀ r ∈ rs, jsTruthyOpt (jLookup r "id") = true → jLookup r pkPath = none →
      rowOutcome svc client databaseName containerName pkPath r =
        .error ((jLookup r "id").getD JValue.null, pkRowMissingMsg pkPath)) := by
  subst hpk
  refine ⟨?_, ?_, ?_, ?_⟩
  · exact congrArg Prod.snd (handleDeleteByQuery_ok svc client databaseName containerName
      deleteQuery rs paths hq hne hrc hfirst)
  · exact filterMap_outcome_length
      (rowOutcome svc client databaseName containerName (partitionKeyPathOf paths)) rs
  · intro r _ hid
    unfold rowOutcome
    rw [if_pos (by simp [hid])]
  · intro r _ hid hnone
    unfold rowOutcome
    rw [if_neg (by simp [hid]), hnone]

theorem c10_delete_buckets_witness :
    wRows ≠ [] ∧
    (wRows.filterMap (fun r =>
        (rowOutcome wService wClient "db" "c" "pk" r).toOption)).length +
      (wRows.filterMap (fun r =>
        exceptErr (rowOutcome wService wClient "db" "c" "pk" r))).length = wRows.length :=
  ⟨by simp [wRows],
    (c10_delete_buckets wService wClient "db" "c" "SELECT * FROM c" "pk" wRows
      (some ["/pk"]) rfl (by simp [wRows]) rfl rfl rfl).2.1⟩

/-- C7: a select whose query returns `n` rows pushes exactly `n` output
records — one processed row each, in order — every one tagged with the
triggering input index; a query returning zero rows pushes zero records and
raises no error (the handler returns `ok`). -/
theorem c7_select_rows (svc : Service) (client : ClientHandle) (continueOnFail : Bool)
    (params : Nat → Operation) (itemIndex : Nat)
    (databaseName containerName sqlQuery : String) (options : SelectOptions)
    (rows : List Obj)
    (hp : params itemIndex = Operation.select databaseName containerName sqlQuery options)
    (hq : svc.queryItems client databaseName containerName sqlQuery = .ok rows) :
    (processItem svc client (params itemIndex)).2 = .ok (rows.map (processRow options)) ∧
    (itemBlock svc client continueOnFail params itemIndex).length = rows.length ∧
    (∀ r ∈ itemBlock svc client continueOnFail params itemIndex,
      r.pairedItem = itemIndex) ∧
    (rows = [] → itemBlock svc client continueOnFail params itemIndex = []) := by
  have hpi : (processItem svc client (params itemIndex)).2 =
      .ok (rows.map (processRow options)) := by
    rw [hp]
    simp [processItem, handleSelect, hq]
  refine ⟨hpi, ?_, itemBlock_pairedItem svc client continueOnFail params itemIndex, ?_⟩
  · unfold itemBlock
    rw [hpi]
    simp
  · intro hrows
    subst hrows
    unfold itemBlock
    rw [hpi]
    rfl

theorem c7_select_rows_witness :
    wSelectParams 0 = Operation.select "db" "c" "SELECT * FROM c" ⟨none, none⟩ ∧
    (itemBlock wEnv.svc wClient true wSelectParams 0).length = wRows.length :=
  ⟨rfl, (c7_select_rows wEnv.svc wClient true wSelectParams 0 "db" "c" "SELECT * FROM c"
    ⟨none, none⟩ wRows rfl rfl).2.1⟩

/-- C8: with `excludeVectorFields` enabled and the default field-name list
`vector,embedding,embeddings`, the emitted row is the input row with exactly
the top-level keys named `vector`, `embedding` or `embeddings` removed: those
three lookups return `none`, and every other top-level key keeps its value
(nested contents untouched, since whole key/value pairs are kept verbatim). -/
theorem c8_vector_exclusion (resource : Obj) :
    processRow ⟨some true, none⟩ resource =
      resource.filter (fun kv =>
        !((["vector", "embedding", "embeddings"] : List String).contains kv.1)) ∧
    (∀ k, (k = "vector" ∨ k = "embedding" ∨ k = "embeddings") →
      jLookup (processRow ⟨some true, none⟩ resource) k = none) ∧
    (∀ k, ¬(k = "vector" ∨ k = "embedding" ∨ k = "embeddings") →
      jLookup (processRow ⟨some true, none⟩ resource) k = jLookup resource k) := by
  have h1 : processRow ⟨some true, none⟩ resource =
      resource.filter (fun kv =>
        !((["vector", "embedding", "embeddings"] : List String).contains kv.1)) := by
    show (vectorFieldList none).foldl deleteKey resource = _
    rw [show vectorFieldList none = ["vector", "embedding", "embeddings"] from rfl,
      foldl_deleteKey_filter]
  refine ⟨h1, ?_, ?_⟩
  · intro k hk
    rw [h1]
    apply jLookup_filter_none
    intro v
    rcases hk with rfl | rfl | rfl <;> rfl
  · intro k hk
    rw [h1]
    apply jLookup_filter_other
    intro v
    have h2 : k ∉ (["vector", "embedding", "embeddings"] : List String) := by
      simpa using hk
    simp [List.elem_iff, h2]

theorem c8_vector_exclusion_witness :
    jLookup (processRow ⟨some true, none⟩ wRow) "embedding" = none ∧
    jLookup (processRow ⟨some true, none⟩ wRow) "text" = jLookup wRow "text" :=
  ⟨(c8_vector_exclusion wRow).2.1 "embedding" (Or.inr (Or.inl rfl)),
    (c8_vector_exclusion wRow).2.2 "text" (by simp)⟩

/-- C4: for every master-key request, the computed `Authorization` header is
the URL-encoding of `type=master&ver=1.0&sig=` followed by the base64
HMAC-SHA256 digest — keyed by the base64-decoded key — of the canonical
string `lowercase(verb)\n lowercase('dbs')\n ''\n lowercase(date)\n\n`
(`masterKeySignature`, assembled from the spec's words), where the request
verb is `(method || 'GET').toUpperCase()`; the header is attached together
with `x-ms-date = date` and the fixed API version string `2018-12-31`; and
for a fixed timestamp the header depends on nothing but the method, date and
key, so the signing function is pure and deterministic. -/
theorem c4_master_key_signature (key date : String)
    (requestOptions : HttpRequestOptions) :
    (authenticate key date requestOptions).headers.lookup "Authorization" =
      some (masterKeySignature (asciiUpper (orDefault requestOptions.method "GET"))
        "dbs" "" date key) ∧
    (authenticate key date requestOptions).headers.lookup "x-ms-date" = some date ∧
    (authenticate key date requestOptions).headers.lookup "x-ms-version" =
      some "2018-12-31" ∧
    (∀ ro2 : HttpRequestOptions, ro2.method = requestOptions.method →
      (authenticate key date ro2).headers.lookup "Authorization" =
        (authenticate key date requestOptions).headers.lookup "Authorization") := by
  have hne1 : ("Authorization" : String) ≠ "x-ms-version" := by decide
  have hne2 : ("Authorization" : String) ≠ "x-ms-date" := by decide
  have hne3 : ("x-ms-date" : String) ≠ "x-ms-version" := by decide
  have hauth : ∀ ro : HttpRequestOptions,
      (authenticate key date ro).headers.lookup "Authorization" =
        some (masterKeySignature (asciiUpper (orDefault ro.method "GET")) "dbs" "" date key) := by
    intro ro
    simp only [authenticate]
    rw [objSetStr_lookup_other _ _ _ _ hne1, objSetStr_lookup_other _ _ _ _ hne2,
      objSetStr_lookup_self]
    rfl
  refine ⟨hauth requestOptions, ?_, ?_, ?_⟩
  · simp only [authenticate]
    rw [objSetStr_lookup_other _ _ _ _ hne3, objSetStr_lookup_self]
  · simp only [authenticate]
    rw [objSetStr_lookup_self]
  · intro ro2 hm
    rw [hauth ro2, hauth requestOptions, hm]

theorem c4_master_key_signature_witness :
    (authenticate "a2V5" "mon, 01 jan 2024 00:00:00 gmt"
        ⟨some "GET", [("accept", "application/json")]⟩).headers.lookup "Authorization" =
      (authenticate "a2V5" "mon, 01 jan 2024 00:00:00 gmt"
        ⟨some "GET", []⟩).headers.lookup "Authorization" :=
  (c4_master_key_signature "a2V5" "mon, 01 jan 2024 00:00:00 gmt"
    ⟨some "GET", []⟩).2.2.2 ⟨some "GET", [("accept", "application/json")]⟩ rfl

/-- C5 counterexample: an entraId-authenticated `execute` run whose credential
carries an empty access token (`wEnv.entraCreds.access_token = some ""`) does
not raise any hard failure — it builds the client around the empty token,
performs the remote query call, and returns the query's rows.  This refutes
the claim that every entraId run with a missing or empty token fails with
`'no valid access token, re-authenticate'` before any remote call. -/
theorem c5_token_check_counterexample :
    wEnv.entraCreds.access_token = some "" ∧
    (execute wEnv wAuthEntra wSelectParams 1 false).trace =
      [(wEntraClient, RemoteCall.queryItems "db" "c" "SELECT * FROM c")] ∧
    (execute wEnv wAuthEntra wSelectParams 1 false).result =
      ExecResult.ok [⟨wRowA, 0⟩, ⟨wRowB, 0⟩, ⟨wRowC, 0⟩] :=
  ⟨rfl, rfl, rfl⟩

/-- C5 amended: the token-presence check lives in the list-search lookups, not
in `execute`: `getDatabases` under entraId with a missing or empty access
token fails hard with `'No valid access token available. Please
re-authenticate.'` (surfaced behind the `'Failed to load databases: '`
prefix) before any remote call — its trace is empty. -/
theorem c5_token_check_lookup (env : ExecEnv) (filterStr : Option String)
    (h : env.entraCreds.access_token = none ∨ env.entraCreds.access_token = some "") :
    getDatabases env "entraId" filterStr =
      ([], .error
        "Failed to load databases: No valid access token available. Please re-authenticate.") := by
  simp only [getDatabases]
  rcases h with h | h <;> simp [jsTruthyStrOpt, h]

theorem c5_token_check_lookup_witness :
    getDatabases wEnv "entraId" none =
      ([], .error
        "Failed to load databases: No valid access token available. Please re-authenticate.") :=
  c5_token_check_lookup wEnv none (Or.inr rfl)

/-- C6 counterexample: an insert whose parsed document has an id but lacks the
container's partition-key field does fail before the create call, but only
after the remote container-metadata read: the handler's trace is the
non-empty `[readContainer]`.  This refutes the claim that in both
precondition cases the failure occurs before any remote call is made. -/
theorem c6_precondition_counterexample :
    handleInsert wService wClient "db" "c" (Except.ok [("id", JValue.str "1")]) =
      ([(wClient, RemoteCall.readContainer "db" "c")],
        Except.error
          "Document must include the partition key field 'pk'. Add this field to your document.") ∧
    ((handleInsert wService wClient "db" "c" (Except.ok [("id", JValue.str "1")])).1 ≠ []) :=
  ⟨rfl, by
    show [(wClient, RemoteCall.readContainer "db" "c")] ≠ ([] : List (ClientHandle × RemoteCall))
    simp⟩

/-- C6 amended: for insert and upsert alike, a document with a falsy or absent
identifier fails the record with `'Document must include an ID field'` before
any remote call (empty trace); a parsed document lacking the container's
partition-key field fails the record with the instructive message after
exactly the container-metadata read and before any create/upsert call is
attempted (the trace is exactly `[readContainer]`); neither error is
retried. -/
theorem c6_precondition_amended (svc : Service) (client : ClientHandle)
    (databaseName containerName : String) (doc : Obj) (paths : Option (List String)) :
    (jsTruthyOpt (jLookup doc "id") = false →
      handleInsert svc client databaseName containerName (Except.ok doc) =
        ([], .error idMissingMsg) ∧
      handleUpsert svc client databaseName containerName (Except.ok doc) =
        ([], .error idMissingMsg)) ∧
    (jsTruthyOpt (jLookup doc "id") = true →
      svc.readContainer client databaseName containerName = .ok paths →
      jLookup doc (partitionKeyPathOf paths) = none →
      handleInsert svc client databaseName containerName (Except.ok doc) =
        ([(client, .readContainer databaseName containerName)],
          .error (pkDocMissingMsg (partitionKeyPathOf paths))) ∧
      handleUpsert svc client databaseName containerName (Except.ok doc) =
        ([(client, .readContainer databaseName containerName)],
          .error (pkDocMissingMsg (partitionKeyPathOf paths)))) := by
  constructor
  · intro hid
    constructor
    · simp [handleInsert, hid]
    · simp [handleUpsert, hid]
  · intro hid hrc hpk
    constructor
    · simp [handleInsert, hid, hrc, hpk]
    · simp [handleUpsert, hid, hrc, hpk]

theorem c6_precondition_amended_witness :
    jsTruthyOpt (jLookup ([] : Obj) "id") = false ∧
    handleUpsert wService wClient "db" "c" (Except.ok []) =
      ([], .error idMissingMsg) :=
  ⟨rfl, ((c6_precondition_amended wService wClient "db" "c" [] (some ["/pk"])).1 rfl).2⟩

/-- C9: the client handle is resolved once, from the `authenticationType`
parameter at record index 0, and that single client is the one every remote
call of every record uses; two per-index authentication-type parameter
functions that agree at index 0 yield byte-identical executions, however they
differ at the other indices. -/
theorem c9_single_client (env : ExecEnv) (auth1 auth2 : Nat → String)
    (params : Nat → Operation) (n : Nat) (continueOnFail : Bool) :
    (∀ e ∈ (execute env auth1 params n continueOnFail).trace,
      e.1 = (resolveClient env (auth1 0)).2) ∧
    (auth1 0 = auth2 0 →
      execute env auth1 params n continueOnFail =
        execute env auth2 params n continueOnFail) := by
  constructor
  · exact runItems_trace_client env.svc (resolveClient env (auth1 0)).2 continueOnFail
      params n 0
  · intro h
    unfold execute
    rw [h]

theorem c9_single_client_witness :
    (wClient, RemoteCall.queryItems "db" "c" "SELECT * FROM c").1 =
        (resolveClient wEnv (wAuthMaster 0)).2 ∧
    execute wEnv wAuthMaster wSelectParams 1 true =
      execute wEnv (fun i => if i = 0 then "masterKey" else "entraId") wSelectParams 1 true :=
  ⟨(c9_single_client wEnv wAuthMaster wAuthMaster wSelectParams 1 true).1
      (wClient, RemoteCall.queryItems "db" "c" "SELECT * FROM c") (List.Mem.head _),
    (c9_single_client wEnv wAuthMaster
      (fun i => if i = 0 then "masterKey" else "entraId") wSelectParams 1 true).2 rfl⟩
